import Mathlib

set_option linter.unusedVariables false

/-!
Verification of the sahaidachny loop orchestrator against its design
specification.

This file is a shallow embedding of the Python sources under src/:

* src/saha/models/state.py        (LoopPhase, StepStatus, StepRecord,
                                   IterationRecord, ExecutionState)
* src/saha/orchestrator/state.py  (StateManager)
* src/saha/orchestrator/loop.py   (AgenticLoop, InterruptHandler)
* src/saha/runners/base.py        (RunnerResult)
* src/saha/runners/usage.py       (normalize_token_usage)
* src/saha/runners/_utils.py      (FileChangeTracker, try_parse_json)

Modelling conventions:

* timestamps: every call of datetime.now() is modelled by a monotone
  counter (the clock field of World) that is read and incremented;
* persistence: StateManager.save serialises the state; the model keeps
  the persisted document as an Option ExecutionState (serialisation is
  faithful for the fields claims talk about, so it is the identity);
* external agents: each runner.run_agent invocation returns a
  RunnerResult supplied by an environment (IterEnv per iteration);
  prompts and agent context dictionaries are inputs of the external
  agent only, except that the per-call fix_info entry built at
  loop.py:545-550 is recorded in the ghost trace World.impl_calls;
* logging, rich console output and hooks (saha/logging.py,
  saha/hooks/*) never mutate ExecutionState and are dropped;
* PlanProgressUpdater writes only to external markdown plan files,
  except for caching the selected phase under the context key
  current_plan_phase (plan_progress.py _ensure_phase_context); only
  that context effect is modelled, driven by IterEnv.plan_select;
* Python dictionaries with heterogeneous values are modelled by PyVal
  association lists; truthiness mirrors Python bool().
-/

/-- Model of a Python value as stored in open string-keyed dictionaries
(agent structured output, raw token-usage payloads). -/
inductive PyVal where
  | pyNone
  | pyBool (b : Bool)
  | pyInt (n : Int)
  | pyStr (s : String)
  | pyList (xs : List PyVal)
  | pyDict (xs : List (String × PyVal))

/-- Python truthiness of a value, as used by bool(x) and by if x. -/
def PyVal.truthy : PyVal → Bool
  | .pyNone => false
  | .pyBool b => b
  | .pyInt n => n != 0
  | .pyStr s => !s.isEmpty
  | .pyList xs => !xs.isEmpty
  | .pyDict xs => !xs.isEmpty

/-- Model of dict.get(key, default). Python dictionaries have unique
keys, so first-match lookup is faithful. -/
def pyDictGet (d : List (String × PyVal)) (k : String) (dflt : PyVal) : PyVal :=
  match d.lookup k with
  | some v => v
  | none => dflt

/-- Model of dict.get(key) (default None collapsed into Option). -/
def pyDictGetOpt (d : List (String × PyVal)) (k : String) : Option PyVal :=
  d.lookup k

/-- Coercion of a structured-output value into an optional string field
(pydantic str-or-None field; non-string payloads are out of model). -/
def asOptStr : Option PyVal → Option String
  | some (.pyStr s) => some s
  | _ => none

/-- Coercion of a structured-output value into a str field with the
original Python default already substituted by pyDictGet. -/
def asStrD (v : PyVal) (dflt : String) : String :=
  match v with
  | .pyStr s => s
  | _ => dflt

/-- Coercion of a structured-output value into an int field. -/
def asIntD (v : PyVal) (dflt : Int) : Int :=
  match v with
  | .pyInt n => n
  | _ => dflt

/-- Coercion of a structured-output value into a list field. -/
def asListD (v : PyVal) : List PyVal :=
  match v with
  | .pyList xs => xs
  | _ => []

/-- Coercion of a structured-output value into a list-of-str field. -/
def asStrListD (v : PyVal) : List String :=
  match v with
  | .pyList xs => xs.filterMap (fun x => match x with | .pyStr s => some s | _ => none)
  | _ => []

/-- Python a or b for an optional string a with a string fallback
(None and the empty string are falsy). -/
def pyOrStr (a : Option String) (b : String) : String :=
  match a with
  | some s => if s.isEmpty then b else s
  | none => b

/-- Python str(x) for an optional string (str(None) is "None"). -/
def pyStrOfOpt : Option String → String
  | some s => s
  | none => "None"

/-- Python a or b for an optional string list (None and [] are falsy). -/
def pyOrList (a : Option (List String)) (b : List String) : List String :=
  match a with
  | some l => if l.isEmpty then b else l
  | none => b

/-- Value stored in ExecutionState.context.  The orchestrator stores
either None (a failing phase may produce no fix-info) or a string. -/
inductive CtxVal where
  | vNone
  | vStr (s : String)
deriving DecidableEq

/-- Python assignment ctx[k] = v on a string-keyed dict (replace in
place if present, else append; insertion order preserved). -/
def ctxSet (ctx : List (String × CtxVal)) (k : String) (v : CtxVal) : List (String × CtxVal) :=
  if (ctx.lookup k).isSome then
    ctx.map (fun p => if p.1 == k then (k, v) else p)
  else
    ctx ++ [(k, v)]

/-- Python ctx.get(k): both an absent key and a stored None read back
as None. -/
def pyCtxGet (ctx : List (String × CtxVal)) (k : String) : CtxVal :=
  match ctx.lookup k with
  | some v => v
  | none => .vNone

/-- LoopPhase enumeration (src/saha/models/state.py lines 11-23). -/
inductive LoopPhase where
  | idle
  | implementation
  | test_critique
  | qa
  | code_quality
  | manager
  | dod_check
  | stopped
  | completed
  | failed
deriving DecidableEq

/-- StepStatus enumeration (src/saha/models/state.py lines 26-33). -/
inductive StepStatus where
  | pending
  | in_progress
  | completed
  | failed
  | skipped
deriving DecidableEq

/-- StepRecord (src/saha/models/state.py lines 36-45). -/
structure StepRecord where
  phase : LoopPhase
  status : StepStatus
  started_at : Option Nat
  completed_at : Option Nat
  attempt : Nat
  error : Option String
  output_summary : Option String
deriving DecidableEq

/-- IterationRecord (src/saha/models/state.py lines 48-61). -/
structure IterationRecord where
  iteration : Nat
  started_at : Nat
  completed_at : Option Nat
  steps : List StepRecord
  test_critique_passed : Bool
  dod_achieved : Bool
  quality_passed : Bool
  fix_info : Option String
  files_changed : List String
  files_added : List String
deriving DecidableEq

/-- ExecutionState (src/saha/models/state.py lines 64-79). -/
structure ExecutionState where
  task_id : String
  task_path : String
  current_phase : LoopPhase
  current_iteration : Nat
  max_iterations : Nat
  started_at : Option Nat
  completed_at : Option Nat
  error_message : Option String
  iterations : List IterationRecord
  enabled_tools : List String
  context : List (String × CtxVal)
  last_agent_output : Option String
deriving DecidableEq

/-- In-place mutation of the last element of a list, modelling Python
mutation of the object self.iterations[-1] (never reached on an empty
list). -/
def updateLast (l : List α) (f : α → α) : List α :=
  match l.getLast? with
  | none => []
  | some x => l.dropLast ++ [f x]

/-- ExecutionState.start_iteration (src/saha/models/state.py lines
98-106): increment current_iteration and append a fresh
IterationRecord stamped with now.  Returns the new state and clock. -/
def ExecutionState.start_iteration (s : ExecutionState) (clock : Nat) :
    ExecutionState × Nat :=
  let s := { s with current_iteration := s.current_iteration + 1 }
  ({ s with iterations := s.iterations ++
      [{ iteration := s.current_iteration
         started_at := clock
         completed_at := none
         steps := []
         test_critique_passed := false
         dod_achieved := false
         quality_passed := false
         fix_info := none
         files_changed := []
         files_added := [] }] }, clock + 1)

/-- ExecutionState.record_step (src/saha/models/state.py lines
108-128): auto-start an iteration when none exists, then append a
StepRecord to the current iteration.  started_at is stamped for
IN_PROGRESS steps and completed_at for COMPLETED steps. -/
def ExecutionState.record_step (s : ExecutionState) (clock : Nat)
    (phase : LoopPhase) (status : StepStatus)
    (error : Option String) (output_summary : Option String) :
    ExecutionState × Nat :=
  let sc := if s.iterations.isEmpty then s.start_iteration clock else (s, clock)
  let s := sc.1
  let clock := sc.2
  let sa := if status = StepStatus.in_progress then some clock else none
  let clock := if status = StepStatus.in_progress then clock + 1 else clock
  let ca := if status = StepStatus.completed then some clock else none
  let clock := if status = StepStatus.completed then clock + 1 else clock
  let step : StepRecord :=
    { phase := phase, status := status, started_at := sa, completed_at := ca,
      attempt := 1, error := error, output_summary := output_summary }
  ({ s with iterations := updateLast s.iterations (fun r => { r with steps := r.steps ++ [step] }) },
   clock)

/-- ExecutionState.current_iteration_record (src/saha/models/state.py
lines 91-96). -/
def ExecutionState.current_iteration_record (s : ExecutionState) : Option IterationRecord :=
  s.iterations.getLast?

/-- World threaded through the orchestrator: the in-memory
ExecutionState, the persisted YAML document for the task, the ghost
trace of Implementation-agent invocations (current_iteration and the
fix_info entry of the context dict built at loop.py:545-550), and the
datetime.now() clock. -/
structure World where
  state : ExecutionState
  persisted : Option ExecutionState
  impl_calls : List (Nat × CtxVal)
  clock : Nat
deriving DecidableEq

/-- StateManager.save (src/saha/orchestrator/state.py lines 57-72):
full-document overwrite of the persisted state. -/
def StateManager.save (w : World) : World :=
  { w with persisted := some w.state }

/-- StateManager.delete (src/saha/orchestrator/state.py lines
149-159): remove the persisted document. -/
def StateManager.delete (w : World) : World :=
  { w with persisted := none }

/-- StateManager.create (src/saha/orchestrator/state.py lines 74-90):
build a fresh ExecutionState stamped started_at now and persist it. -/
def StateManager.create (w : World) (task_id : String) (task_path : String)
    (max_iterations : Nat) (enabled_tools : List String) : World :=
  let s : ExecutionState :=
    { task_id := task_id
      task_path := task_path
      current_phase := .idle
      current_iteration := 0
      max_iterations := max_iterations
      started_at := some w.clock
      completed_at := none
      error_message := none
      iterations := []
      enabled_tools := enabled_tools
      context := []
      last_agent_output := none }
  StateManager.save { w with state := s, clock := w.clock + 1 }

/-- StateManager.update_phase (src/saha/orchestrator/state.py lines
92-96): set current_phase, record an IN_PROGRESS step, save. -/
def StateManager.update_phase (w : World) (phase : LoopPhase) : World :=
  let s := { w.state with current_phase := phase }
  let sc := s.record_step w.clock phase .in_progress none none
  StateManager.save { w with state := sc.1, clock := sc.2 }

/-- StateManager.complete_phase (src/saha/orchestrator/state.py lines
98-106): record a COMPLETED step, save. -/
def StateManager.complete_phase (w : World) (phase : LoopPhase)
    (output_summary : Option String) : World :=
  let sc := w.state.record_step w.clock phase .completed none output_summary
  StateManager.save { w with state := sc.1, clock := sc.2 }

/-- StateManager.fail_phase (src/saha/orchestrator/state.py lines
108-121): set current_phase to FAILED, store the error, record a
FAILED step, save. -/
def StateManager.fail_phase (w : World) (phase : LoopPhase) (error : String) : World :=
  let s := { w.state with current_phase := .failed, error_message := some error }
  let sc := s.record_step w.clock phase .failed (some error) none
  StateManager.save { w with state := sc.1, clock := sc.2 }

/-- StateManager.mark_completed (src/saha/orchestrator/state.py lines
123-127): set current_phase to COMPLETED, stamp completed_at, save. -/
def StateManager.mark_completed (w : World) : World :=
  let s := { w.state with current_phase := .completed, completed_at := some w.clock }
  StateManager.save { w with state := s, clock := w.clock + 1 }

/-- StateManager.mark_failed (src/saha/orchestrator/state.py lines
129-135): set current_phase to FAILED, stamp completed_at, store the
error, record a FAILED step, save. -/
def StateManager.mark_failed (w : World) (error : String) : World :=
  let s := { w.state with
             current_phase := .failed
             completed_at := some w.clock
             error_message := some error }
  let clock := w.clock + 1
  let sc := s.record_step clock .failed .failed (some error) none
  StateManager.save { w with state := sc.1, clock := sc.2 }

/-- Modelled from the spec: StateManager.mark_stopped is called at
src/saha/orchestrator/loop.py line 252 but its definition is absent
from src/saha/orchestrator/state.py.  Spec section 4.4 lists
markStopped among the phase-transition helpers that each mutate
Execution State and immediately persist, and section 7 states that
Stopped reports the interrupt reason (read back from error_message by
src/saha/commands/execution.py line 213).  Accordingly, it sets
current_phase to STOPPED, stores the reason in error_message, and
saves. -/
def StateManager.mark_stopped (w : World) (reason : String) : World :=
  let s := { w.state with current_phase := .stopped, error_message := some reason }
  StateManager.save { w with state := s }

/-- ResultStatus (src/saha/models/result.py lines 10-16). -/
inductive ResultStatus where
  | success
  | failure
  | partialStatus
  | error
deriving DecidableEq

/-- RunnerResult (src/saha/runners/base.py lines 9-19). -/
structure RunnerResult where
  success : Bool
  output : String
  structured_output : Option (List (String × PyVal))
  error : Option String
  tokens_used : Nat
  token_usage : Option (List (String × Int))
  exit_code : Int

/-- Python truthiness of RunnerResult.structured_output (None and the
empty dict are falsy). -/
def structuredTruthy (r : RunnerResult) : Bool :=
  match r.structured_output with
  | some d => !d.isEmpty
  | none => false

/-- Structured output with the Python "or {}" fallback applied. -/
def structuredD (r : RunnerResult) : List (String × PyVal) :=
  match r.structured_output with
  | some d => d
  | none => []

/-- SubagentResult (src/saha/models/result.py lines 47-62). -/
structure SubagentResult where
  agent_name : String
  status : ResultStatus
  output : String
  structured_output : List (String × PyVal)
  error : Option String
  tokens_used : Nat

/-- SubagentResult.succeeded (src/saha/models/result.py lines 57-60). -/
def SubagentResult.succeeded (r : SubagentResult) : Bool :=
  r.status == .success

/-- Modelled from the spec: TestCritiqueResult is imported by
src/saha/orchestrator/loop.py from saha.models.result but its class is
absent from src/saha/models/result.py.  Its fields are reconstructed
from the three constructor calls in loop.py lines 638-643, 701-710 and
724-729 together with spec section 3 (Agent Result / quality-gate
outcome flags and fix-info). -/
structure TestCritiqueResult where
  status : ResultStatus
  passed : Bool
  test_quality_score : String
  tests_analyzed : Int
  hollow_tests : Int
  issues : List PyVal
  summary : String
  fix_info : Option String

/-- QAResult (src/saha/models/result.py lines 73-87); the fields the
orchestrator reads. -/
structure QAResult where
  status : ResultStatus
  dod_achieved : Bool
  fix_info : Option String
  test_output : String

/-- CodeQualityResult (src/saha/models/result.py lines 102-115); the
fields the orchestrator reads. -/
structure CodeQualityResult where
  status : ResultStatus
  passed : Bool
  fix_info : Option String
  issues : List PyVal
  files_analyzed : List String
  blocking_issues_count : Int
  ignored_issues_count : Int

/-- Behaviour of the external world during one loop iteration: the
RunnerResult of each backend invocation, whether each optional agent
spec file exists, the plan phase file select_active_phase would pick
(relative path, or none when no implementation-plan directory or no
phase files exist), and the stdout of the pytest tool run. -/
structure IterEnv where
  impl : RunnerResult
  critique_agent_exists : Bool
  critique : RunnerResult
  qa : RunnerResult
  quality : RunnerResult
  manager_agent_exists : Bool
  manager : RunnerResult
  dod_agent_exists : Bool
  dod : RunnerResult
  plan_select : Option String
  pytest_stdout : String

/-- LoopConfig (src/saha/orchestrator/loop.py lines 79-88). -/
structure LoopConfig where
  task_id : String
  task_path : String
  max_iterations : Nat
  enabled_tools : Option (List String)
  playwright_enabled : Bool
  verification_scripts : List String

/-- AgenticLoop._prepare_plan_progress (loop.py lines 276-288) together
with PlanProgressUpdater.select_active_phase and _ensure_phase_context
(plan_progress.py lines 49-77 and 145-152): when a plan phase is
selected, cache its relative path under context key current_plan_phase
and save the state if that changed.  All other plan-progress effects
are writes to external markdown files and are outside the state
model. -/
def AgenticLoop.prepare_plan_progress (w : World) (e : IterEnv) : World :=
  match e.plan_select with
  | none => w
  | some rel =>
      if pyCtxGet w.state.context "current_plan_phase" = CtxVal.vStr rel then w
      else
        StateManager.save
          { w with state :=
              { w.state with context := ctxSet w.state.context "current_plan_phase" (CtxVal.vStr rel) } }

/-- AgenticLoop._run_implementation (loop.py lines 519-594).  The
context dict handed to the runner (lines 545-550) carries the entry
fix_info = state.context.get("fix_info"); the ghost trace records that
entry together with state.current_iteration. -/
def AgenticLoop.run_implementation (cfg : LoopConfig) (e : IterEnv) (w : World) :
    SubagentResult × World :=
  let w := StateManager.update_phase w .implementation
  let w := { w with impl_calls :=
               w.impl_calls ++ [(w.state.current_iteration, pyCtxGet w.state.context "fix_info")] }
  let result := e.impl
  if result.success then
    let w := StateManager.complete_phase w .implementation (some "Code implemented")
    ({ agent_name := "implementation"
       status := .success
       output := result.output
       structured_output := structuredD result
       error := none
       tokens_used := result.tokens_used }, w)
  else
    ({ agent_name := "implementation"
       status := .failure
       output := ""
       structured_output := []
       error := result.error
       tokens_used := result.tokens_used }, w)

/-- AgenticLoop._run_test_critique (loop.py lines 596-729): a missing
agent spec or a backend result without success and non-empty
structured output is treated as a pass-through; otherwise the agent
decides via the critique_passed key (default True). -/
def AgenticLoop.run_test_critique (cfg : LoopConfig) (e : IterEnv)
    (impl_result : SubagentResult) (w : World) : TestCritiqueResult × World :=
  let w := StateManager.update_phase w .test_critique
  if !e.critique_agent_exists then
    let w := StateManager.complete_phase w .test_critique none
    ({ status := .success
       passed := true
       test_quality_score := "B"
       tests_analyzed := 0
       hollow_tests := 0
       issues := []
       summary := "Test critique agent not configured, skipping"
       fix_info := none }, w)
  else
    let result := e.critique
    if result.success && structuredTruthy result then
      let d := structuredD result
      let critique_passed := (pyDictGet d "critique_passed" (.pyBool true)).truthy
      let score := asStrD (pyDictGet d "test_quality_score" (.pyStr "C")) "C"
      let fix_info := if !critique_passed then asOptStr (pyDictGetOpt d "fix_info") else none
      let w :=
        if critique_passed then
          StateManager.complete_phase w .test_critique none
        else
          let sc := w.state.record_step w.clock .test_critique .failed
            (some (pyOrStr fix_info "Test quality check failed")) none
          StateManager.save { w with state := sc.1, clock := sc.2 }
      ({ status := if critique_passed then .success else .failure
         passed := critique_passed
         test_quality_score := score
         tests_analyzed := asIntD (pyDictGet d "tests_analyzed" (.pyInt 0)) 0
         hollow_tests := asIntD (pyDictGet d "hollow_tests" (.pyInt 0)) 0
         issues := asListD (pyDictGet d "issues" (.pyList []))
         summary := asStrD (pyDictGet d "summary" (.pyStr "")) ""
         fix_info := fix_info }, w)
    else
      let w := StateManager.complete_phase w .test_critique none
      ({ status := .success
         passed := true
         test_quality_score := "C"
         tests_analyzed := 0
         hollow_tests := 0
         issues := []
         summary := "Agent error: " ++ pyStrOfOpt result.error ++ ", proceeding with caution"
         fix_info := none }, w)

/-- AgenticLoop._run_qa (loop.py lines 772-873): on backend success the
dod_achieved key of the structured output decides (default False, and
False when structured output is absent or empty); on backend failure
the result is an ERROR with dod_achieved False and no completion step
recorded. -/
def AgenticLoop.run_qa (cfg : LoopConfig) (e : IterEnv)
    (impl_result : SubagentResult) (w : World) : QAResult × World :=
  let w := StateManager.update_phase w .qa
  let result := e.qa
  let test_output := if w.state.enabled_tools.contains "pytest" then e.pytest_stdout else ""
  if result.success then
    let dod_achieved :=
      if structuredTruthy result then
        (pyDictGet (structuredD result) "dod_achieved" (.pyBool false)).truthy
      else false
    let fix_info :=
      if structuredTruthy result then asOptStr (pyDictGetOpt (structuredD result) "fix_info")
      else none
    let w := StateManager.complete_phase w .qa none
    ({ status := if dod_achieved then .success else .failure
       dod_achieved := dod_achieved
       fix_info := if !dod_achieved then some (pyOrStr fix_info result.output) else none
       test_output := test_output }, w)
  else
    ({ status := .error
       dod_achieved := false
       fix_info := result.error
       test_output := "" }, w)

/-- AgenticLoop._run_code_quality (loop.py lines 875-992): the agent
decides via the quality_passed key (default False); a backend result
without success and non-empty structured output falls back to
passing. -/
def AgenticLoop.run_code_quality (cfg : LoopConfig) (e : IterEnv)
    (impl_result : SubagentResult) (w : World) : CodeQualityResult × World :=
  let w := StateManager.update_phase w .code_quality
  let result := e.quality
  if result.success && structuredTruthy result then
    let d := structuredD result
    let quality_passed := (pyDictGet d "quality_passed" (.pyBool false)).truthy
    let fix_info := if !quality_passed then asOptStr (pyDictGetOpt d "fix_info") else none
    let w :=
      if quality_passed then
        StateManager.complete_phase w .code_quality none
      else
        let sc := w.state.record_step w.clock .code_quality .failed
          (some (pyOrStr fix_info "Quality check failed")) none
        StateManager.save { w with state := sc.1, clock := sc.2 }
    ({ status := if quality_passed then .success else .failure
       passed := quality_passed
       fix_info := fix_info
       issues := asListD (pyDictGet d "issues" (.pyList []))
       files_analyzed := asStrListD (pyDictGet d "files_analyzed" (.pyList []))
       blocking_issues_count := asIntD (pyDictGet d "blocking_issues_count" (.pyInt 0)) 0
       ignored_issues_count := asIntD (pyDictGet d "ignored_issues_count" (.pyInt 0)) 0 }, w)
  else
    let w := StateManager.complete_phase w .code_quality none
    ({ status := .success
       passed := true
       fix_info := none
       issues := []
       files_analyzed := []
       blocking_issues_count := 0
       ignored_issues_count := 0 }, w)

/-- AgenticLoop._run_manager (loop.py lines 1030-1116): the manager is
observational; whatever the backend does, the state effect is an
IN_PROGRESS step followed by a COMPLETED step (lines 1045, 1064 and
1116).  The manager context and prompt are inputs of the external
agent only. -/
def AgenticLoop.run_manager (cfg : LoopConfig) (e : IterEnv) (timeout : Nat) (w : World) : World :=
  let w := StateManager.update_phase w .manager
  if !e.manager_agent_exists then
    StateManager.complete_phase w .manager none
  else
    let result := e.manager
    StateManager.complete_phase w .manager none

/-- AgenticLoop._run_manager_on_iteration_stop (loop.py lines 478-517):
best-effort manager update, then restore the stopped phase unless the
state became FAILED, COMPLETED or STOPPED. -/
def AgenticLoop.run_manager_on_iteration_stop (cfg : LoopConfig) (e : IterEnv)
    (stopped_at_phase : LoopPhase) (stop_reason : String) (w : World) : World :=
  let w := AgenticLoop.run_manager cfg e 300 w
  if w.state.current_phase = .failed ∨ w.state.current_phase = .completed ∨
      w.state.current_phase = .stopped then w
  else
    StateManager.save { w with state := { w.state with current_phase := stopped_at_phase } }

/-- AgenticLoop._run_dod_check (loop.py lines 1168-1272): a missing
agent spec is a configuration error reported as not-complete; on
success with non-empty structured output the task_complete key decides
via bool(); otherwise not-complete. -/
def AgenticLoop.run_dod_check (cfg : LoopConfig) (e : IterEnv) (w : World) : Bool × World :=
  let w := StateManager.update_phase w .dod_check
  if !e.dod_agent_exists then
    (false, w)
  else
    let result := e.dod
    if result.success && structuredTruthy result then
      let task_complete := (pyDictGet (structuredD result) "task_complete" (.pyBool false)).truthy
      let w := StateManager.complete_phase w .dod_check none
      (task_complete, w)
    else
      (false, w)

/-- Mutation of the current (last) iteration record in place. -/
def updateLastIter (w : World) (f : IterationRecord → IterationRecord) : World :=
  { w with state := { w.state with iterations := updateLast w.state.iterations f } }

/-- The world right after the ExecutionState.start_iteration call at
the top of _run_iteration (loop.py line 322). -/
def afterStart (w : World) : World :=
  { w with
    state := (w.state.start_iteration w.clock).1
    clock := (w.state.start_iteration w.clock).2 }

/-- File-tracking and transcript block of _run_iteration after a
successful Implementation (loop.py lines 349-357): copy
files_changed/files_added from the structured output into the current
iteration record when structured output is non-empty, store
last_agent_output, save. -/
def AgenticLoop.post_implementation (impl_result : SubagentResult) (w : World) : World :=
  let w :=
    if !impl_result.structured_output.isEmpty then
      updateLastIter w (fun it =>
        { it with
          files_changed :=
            asStrListD (pyDictGet impl_result.structured_output "files_changed" (.pyList []))
          files_added :=
            asStrListD (pyDictGet impl_result.structured_output "files_added" (.pyList [])) })
    else w
  let w := { w with state := { w.state with last_agent_output := some impl_result.output } }
  StateManager.save w

/-- Loop-back block of _run_iteration, identical at the TestCritique,
QA and CodeQuality gates (loop.py lines 363-381, 391-408 and 420-438):
store the fix-info in context and on the current iteration record,
save, then run the best-effort manager update and restore the stopped
phase. -/
def AgenticLoop.loop_back (cfg : LoopConfig) (e : IterEnv) (stopped_at_phase : LoopPhase)
    (fix_info : Option String) (default_reason : String) (w : World) : World :=
  let v := match fix_info with | some s => CtxVal.vStr s | none => CtxVal.vNone
  let w := { w with state := { w.state with context := ctxSet w.state.context "fix_info" v } }
  let w := updateLastIter w (fun it => { it with fix_info := fix_info })
  let w := StateManager.save w
  AgenticLoop.run_manager_on_iteration_stop cfg e stopped_at_phase
    (pyOrStr fix_info default_reason) w

/-- Tail of _run_iteration after all four gates passed (loop.py lines
444-476): set quality_passed, run Manager, run the DoD check, mark the
state COMPLETED when the task is complete, stamp the iteration record
completed_at, save. -/
def AgenticLoop.run_iteration_finish (cfg : LoopConfig) (e : IterEnv) (w : World) : World :=
  let w := updateLastIter w (fun it => { it with quality_passed := true })
  let w := AgenticLoop.run_manager cfg e 300 w
  let dr := AgenticLoop.run_dod_check cfg e w
  let w := if dr.1 then StateManager.mark_completed dr.2 else dr.2
  let w := updateLastIter w (fun it => { it with completed_at := some w.clock })
  let w := { w with clock := w.clock + 1 }
  StateManager.save w

/-- Stage of _run_iteration from the CodeQuality gate (loop.py lines
414-476). -/
def AgenticLoop.run_iteration_after_qa (cfg : LoopConfig) (e : IterEnv)
    (impl_result : SubagentResult) (w : World) : World :=
  let w := updateLastIter w (fun it => { it with dod_achieved := true })
  let kr := AgenticLoop.run_code_quality cfg e impl_result w
  if !kr.1.passed then
    AgenticLoop.loop_back cfg e .code_quality kr.1.fix_info "Code quality failed" kr.2
  else
    AgenticLoop.run_iteration_finish cfg e kr.2

/-- Stage of _run_iteration from the QA gate (loop.py lines 387-476). -/
def AgenticLoop.run_iteration_after_critique (cfg : LoopConfig) (e : IterEnv)
    (impl_result : SubagentResult) (w : World) : World :=
  let w := updateLastIter w (fun it => { it with test_critique_passed := true })
  let qr := AgenticLoop.run_qa cfg e impl_result w
  if !qr.1.dod_achieved then
    AgenticLoop.loop_back cfg e .qa qr.1.fix_info "QA failed" qr.2
  else
    AgenticLoop.run_iteration_after_qa cfg e impl_result qr.2

/-- Stage of _run_iteration from the TestCritique gate (loop.py lines
349-476). -/
def AgenticLoop.run_iteration_after_impl (cfg : LoopConfig) (e : IterEnv)
    (impl_result : SubagentResult) (w : World) : World :=
  let w := AgenticLoop.post_implementation impl_result w
  let cr := AgenticLoop.run_test_critique cfg e impl_result w
  if !cr.1.passed then
    AgenticLoop.loop_back cfg e .test_critique cr.1.fix_info "Test critique failed" cr.2
  else
    AgenticLoop.run_iteration_after_critique cfg e impl_result cr.2

/-- AgenticLoop._run_iteration (loop.py lines 315-476), staged by gate
for compositional reasoning; interrupt checks are elided (this model
covers uninterrupted runs; the interrupt path is modelled by
AgenticLoop.handle_interrupt). -/
def AgenticLoop.run_iteration (cfg : LoopConfig) (env : Nat → IterEnv) (w : World) : World :=
  let w := afterStart w
  let e := env w.state.current_iteration
  let w := AgenticLoop.prepare_plan_progress w e
  let ir := AgenticLoop.run_implementation cfg e w
  if !ir.1.succeeded then
    let reason := pyOrStr ir.1.error "Implementation failed"
    let w := AgenticLoop.run_manager_on_iteration_stop cfg e .implementation reason ir.2
    StateManager.fail_phase w .implementation reason
  else
    AgenticLoop.run_iteration_after_impl cfg e ir.1 ir.2

/-- AgenticLoop._should_continue (loop.py lines 219-228). -/
def AgenticLoop.should_continue (s : ExecutionState) : Bool :=
  if s.current_phase = .completed ∨ s.current_phase = .failed ∨ s.current_phase = .stopped then
    false
  else if s.max_iterations ≤ s.current_iteration then false
  else true

/-- While-loop of AgenticLoop.run (loop.py lines 179-184), given
enough fuel.  Every pass of _run_iteration increments
current_iteration by exactly one (lemma run_iteration_current below),
so fuel equal to max_iterations makes this the exact while-loop. -/
def AgenticLoop.runWhile (cfg : LoopConfig) (env : Nat → IterEnv) :
    Nat → World → World
  | 0, w => w
  | fuel + 1, w =>
      if AgenticLoop.should_continue w.state then
        AgenticLoop.runWhile cfg env fuel (AgenticLoop.run_iteration cfg env w)
      else w

/-- AgenticLoop.run (loop.py lines 156-197) on the uninterrupted path:
delete any existing state, create a fresh one, iterate while
_should_continue, then _finalize (logging only, no state change).
avail models self._tools.list_available().  The ghost implementation
trace is reset so that it records the calls of this run. -/
def AgenticLoop.run (cfg : LoopConfig) (avail : List String) (env : Nat → IterEnv)
    (w : World) : World :=
  let w := { w with impl_calls := [] }
  let w := StateManager.delete w
  let w := StateManager.create w cfg.task_id cfg.task_path cfg.max_iterations
    (pyOrList cfg.enabled_tools avail)
  AgenticLoop.runWhile cfg env cfg.max_iterations w

/-- AgenticLoop.resume (loop.py lines 199-217): load the persisted
state; error when none exists; error when current_phase is COMPLETED
or FAILED; otherwise build a LoopConfig from the persisted state and
call run. -/
def AgenticLoop.resume (w : World) (avail : List String) (env : Nat → IterEnv) :
    Except String World :=
  match w.persisted with
  | none => .error "No saved state found for task"
  | some st =>
      if st.current_phase = .completed ∨ st.current_phase = .failed then
        .error "Task is already in a terminal phase"
      else
        let cfg : LoopConfig :=
          { task_id := st.task_id
            task_path := st.task_path
            max_iterations := st.max_iterations
            enabled_tools := some st.enabled_tools
            playwright_enabled := false
            verification_scripts := [] }
        .ok (AgenticLoop.run cfg avail env { w with state := st })

/-- AgenticLoop._should_run_manager_on_interrupt (loop.py lines
255-274). -/
def AgenticLoop.should_run_manager_on_interrupt (s : ExecutionState) : Bool :=
  if s.current_iteration = 0 then false
  else if s.current_phase = .manager ∨ s.current_phase = .dod_check ∨
      s.current_phase = .completed ∨ s.current_phase = .failed then false
  else
    match s.current_iteration_record with
    | some it => !it.steps.any (fun st => st.phase == .manager && st.status == .completed)
    | none => true

/-- AgenticLoop._handle_interrupt (loop.py lines 230-253): on the
first observed interrupt, attempt a bounded-time (timeout 10) manager
update when _should_run_manager_on_interrupt allows and no second
interrupt arrived (its errors are caught and logged), then
mark_stopped with the recorded reason and _finalize (logging only).
ic is InterruptHandler.interrupt_count. -/
def AgenticLoop.handle_interrupt (cfg : LoopConfig) (env : Nat → IterEnv) (ic : Nat)
    (w : World) : World :=
  let reason := "Interrupted by user"
  let w :=
    if AgenticLoop.should_run_manager_on_interrupt w.state ∧ ic < 2 then
      AgenticLoop.run_manager cfg (env w.state.current_iteration) 10 w
    else w
  StateManager.mark_stopped w reason

/-- Decision summary of _run_test_critique: whether the returned
TestCritiqueResult reports a pass, as a function of the environment
alone (proved equal to the embedded phase function below). -/
def critiquePasses (e : IterEnv) : Bool :=
  if !e.critique_agent_exists then true
  else if e.critique.success && structuredTruthy e.critique then
    (pyDictGet (structuredD e.critique) "critique_passed" (.pyBool true)).truthy
  else true

/-- Decision summary of _run_qa: the dod_achieved flag of the returned
QAResult as a function of the environment alone. -/
def qaDod (e : IterEnv) : Bool :=
  e.qa.success &&
    (if structuredTruthy e.qa then
      (pyDictGet (structuredD e.qa) "dod_achieved" (.pyBool false)).truthy
    else false)

/-- Decision summary of _run_code_quality: the passed flag of the
returned CodeQualityResult as a function of the environment alone. -/
def qualityPasses (e : IterEnv) : Bool :=
  if e.quality.success && structuredTruthy e.quality then
    (pyDictGet (structuredD e.quality) "quality_passed" (.pyBool false)).truthy
  else true

/-- Decision summary of _run_dod_check: the returned task_complete
flag as a function of the environment alone. -/
def dodDecision (e : IterEnv) : Bool :=
  e.dod_agent_exists && e.dod.success && structuredTruthy e.dod &&
    (pyDictGet (structuredD e.dod) "task_complete" (.pyBool false)).truthy

/-- Alias table _ALIAS_MAP (src/saha/runners/usage.py lines 5-23), in
source order. -/
def ALIAS_MAP : List (String × List String) :=
  [("input_tokens", ["input_tokens", "prompt_tokens", "prompt", "input"]),
   ("output_tokens", ["output_tokens", "completion_tokens", "completion", "output"]),
   ("cache_read_input_tokens",
     ["cache_read_input_tokens", "cache_read_tokens", "cached_tokens", "cache_read"]),
   ("cache_write_input_tokens",
     ["cache_creation_input_tokens", "cache_write_input_tokens", "cache_creation", "cache_write"]),
   ("reasoning_tokens", ["reasoning_tokens", "reasoning_output_tokens", "reasoning"]),
   ("total_tokens", ["total_tokens", "total_token_usage", "total"])]

/-- Inner alias loop of normalize_token_usage (usage.py lines 30-36):
skip bools and unrecognised value types, take the first numeric value.
Python also accepts floats via int(value); numbers are modelled as
integers. -/
def resolveAliases (raw : List (String × PyVal)) : List String → Option Int
  | [] => none
  | a :: rest =>
      match raw.lookup a with
      | some (.pyBool _) => resolveAliases raw rest
      | some (.pyInt n) => some n
      | some _ => resolveAliases raw rest
      | none => resolveAliases raw rest

/-- normalize_token_usage (src/saha/runners/usage.py lines 25-47):
resolve every target through its alias list in order; an empty result
normalises to None; when no total was resolved and input or output is
non-zero, derive total_tokens as their sum. -/
def normalize_token_usage (raw : List (String × PyVal)) : Option (List (String × Int)) :=
  let result := ALIAS_MAP.foldl (fun acc ta =>
    match resolveAliases raw ta.2 with
    | some n => acc ++ [(ta.1, n)]
    | none => acc) []
  if result.isEmpty then none
  else if (result.lookup "total_tokens").isNone then
    let input_tokens := ((result.lookup "input_tokens").getD 0)
    let output_tokens := ((result.lookup "output_tokens").getD 0)
    if input_tokens ≠ 0 ∨ output_tokens ≠ 0 then
      some (result ++ [("total_tokens", input_tokens + output_tokens)])
    else some result
  else some result

/-- FileChangeTracker._SKIP_DIRS (src/saha/runners/_utils.py lines
27-38). -/
def SKIP_DIRS : List String :=
  [".git", ".sahaidachny", ".venv", ".mypy_cache", ".pytest_cache", ".ruff_cache",
   "__pycache__", "node_modules", ".codex", ".claude"]

/-- FileChangeTracker._SKIP_FILES (src/saha/runners/_utils.py line 40). -/
def SKIP_FILES : List String := [".DS_Store"]

/-- A regular file under the tracked root: directory components of its
parent relative to the root, its file name, and its stat fields
st_mtime_ns and st_size. -/
structure FsEntry where
  dirs : List String
  name : String
  mtime_ns : Nat
  size : Nat

/-- rel_path.as_posix() for an entry (components joined with
slashes). -/
def FsEntry.relPath (e : FsEntry) : String :=
  String.intercalate "/" (e.dirs ++ [e.name])

/-- FileChangeTracker._take_snapshot (src/saha/runners/_utils.py lines
64-85): os.walk prunes every directory named in _SKIP_DIRS at every
level, so a file is snapshotted iff none of its directory components
is in _SKIP_DIRS and its name is not in _SKIP_FILES; entries map the
relative posix path to (st_mtime_ns, st_size).  A missing root is the
empty file list. -/
def FileChangeTracker.take_snapshot (fs : List FsEntry) : List (String × (Nat × Nat)) :=
  (fs.filter (fun e =>
    (e.dirs.all (fun d => !SKIP_DIRS.contains d)) && !SKIP_FILES.contains e.name)).map
    (fun e => (e.relPath, (e.mtime_ns, e.size)))

/-- Python sorted() on a list of path strings (code-point
lexicographic order, same as Lean's String order). -/
def pySorted (l : List String) : List String :=
  l.insertionSort (· ≤ ·)

/-- FileChangeTracker.diff (src/saha/runners/_utils.py lines 46-62),
as a function of the construction-time snapshot and the diff-time
snapshot. -/
def FileChangeTracker.diff (snapshot new_snapshot : List (String × (Nat × Nat))) :
    List String × List String :=
  if new_snapshot.isEmpty then ([], [])
  else if snapshot.isEmpty then ([], pySorted (new_snapshot.map (·.1)))
  else
    let files_added := (new_snapshot.map (·.1)).filter (fun p => (snapshot.lookup p).isNone)
    let files_changed := (new_snapshot.filter (fun pm =>
      match snapshot.lookup pm.1 with
      | some m => m != pm.2
      | none => false)).map (·.1)
    (pySorted files_changed, pySorted files_added)

/-- FileChangeTracker end to end: snapshot the filesystem at
construction time and at diff time, then diff. -/
def FileChangeTracker.diffFs (before after : List FsEntry) : List String × List String :=
  FileChangeTracker.diff (FileChangeTracker.take_snapshot before)
    (FileChangeTracker.take_snapshot after)

/-- The backquote character, written by code point to keep it out of
the source text. -/
def backtickChar : Char := Char.ofNat 96

/-- Left curly brace. -/
def lbraceChar : Char := Char.ofNat 123

/-- Right curly brace. -/
def rbraceChar : Char := Char.ofNat 125

/-- Double quote. -/
def quoteChar : Char := Char.ofNat 34

/-- Backslash. -/
def backslashChar : Char := Char.ofNat 92

/-- Left square bracket. -/
def lbrackChar : Char := Char.ofNat 91

/-- Right square bracket. -/
def rbrackChar : Char := Char.ofNat 93

/-- ASCII whitespace matched by Python's regex class for whitespace
and by str.strip() (the non-ASCII Unicode whitespace Python also
accepts is outside this model). -/
def isPySpace (c : Char) : Bool :=
  c == ' ' || c == '\t' || c == '\n' || c == '\x0d' || c == '\x0b' || c == '\x0c'

/-- Python str.strip(). -/
def pyStrip (s : String) : String :=
  String.mk (((s.data.dropWhile isPySpace).reverse.dropWhile isPySpace).reverse)

/-- Whether a list starts with the given pattern. -/
def startsWithPat : List Char → List Char → Bool
  | [], _ => true
  | _ :: _, [] => false
  | p :: ps, c :: cs => p == c && startsWithPat ps cs

/-- Split a list at the first occurrence of a pattern: returns the
part before the occurrence and the part after it. -/
def splitFirst (pat : List Char) : List Char → Option (List Char × List Char)
  | [] => if pat.isEmpty then some ([], []) else none
  | c :: cs =>
      if startsWithPat pat (c :: cs) then some ([], (c :: cs).drop pat.length)
      else
        match splitFirst pat cs with
        | some pr => some (c :: pr.1, pr.2)
        | none => none

/-- Split a list around its last newline: before, after (after holds
no newline). -/
def lastNewlineSplit : List Char → Option (List Char × List Char)
  | [] => none
  | c :: cs =>
      match lastNewlineSplit cs with
      | some ba => some (c :: ba.1, ba.2)
      | none => if c == '\n' then some ([], cs) else none

/-- The literal head of the fenced-block pattern in
_parse_json_from_markdown (three backquotes followed by the letters
json). -/
def jsonFenceOpen : List Char :=
  [backtickChar, backtickChar, backtickChar, 'j', 's', 'o', 'n']

/-- The literal tail of the fenced-block pattern (a newline followed
by three backquotes). -/
def jsonFenceClose : List Char :=
  ['\n', backtickChar, backtickChar, backtickChar]

/-- re.findall of the _parse_json_from_markdown pattern (fence head,
then whitespace-star, then a newline, then a lazy DOTALL capture, then
the fence tail) over the text, left to right and non-overlapping.  The
greedy whitespace-star makes the consumed newline the last newline of
the maximal whitespace run after the fence head; the lazy capture ends
at the first later occurrence of the fence tail; on a failed match the
scan advances one character.  Fuel bounds the recursion; every step
consumes at least one character, so length-plus-one fuel is exact. -/
def scanFenced : Nat → List Char → List (List Char)
  | 0, _ => []
  | fuel + 1, s =>
      if startsWithPat jsonFenceOpen s then
        let rest := s.drop 7
        let w := rest.takeWhile isPySpace
        let tail := rest.dropWhile isPySpace
        match lastNewlineSplit w with
        | none =>
            match s with
            | [] => []
            | _ :: t => scanFenced fuel t
        | some ba =>
            match splitFirst jsonFenceClose (ba.2 ++ tail) with
            | none =>
                match s with
                | [] => []
                | _ :: t => scanFenced fuel t
            | some cp => cp.1 :: scanFenced fuel cp.2
      else
        match s with
        | [] => []
        | _ :: t => scanFenced fuel t

/-- JSON value as produced by json.loads; objects keep their key order
(Python dicts preserve insertion order).  Numbers are modelled as
integers: fractional and exponent forms make the model parser fail
where json.loads would build a float, which never arises in the
orchestrator's integer-valued payloads. -/
inductive Json where
  | jNull
  | jBool (b : Bool)
  | jNum (n : Int)
  | jStr (s : String)
  | jArr (xs : List Json)
  | jObj (xs : List (String × Json))

/-- JSON whitespace accepted by json.loads between tokens. -/
def isJsonWs (c : Char) : Bool :=
  c == ' ' || c == '\t' || c == '\n' || c == '\x0d'

/-- Hexadecimal digit value. -/
def hexVal (c : Char) : Option Nat :=
  if c.isDigit then some (c.toNat - 48)
  else if 'a' ≤ c && c ≤ 'f' then some (c.toNat - 87)
  else if 'A' ≤ c && c ≤ 'F' then some (c.toNat - 55)
  else none

/-- JSON string body after the opening quote: strict mode (control
characters rejected), with the standard escapes. -/
def parseJStringAux : Nat → List Char → List Char → Option (String × List Char)
  | 0, _, _ => none
  | fuel + 1, acc, s =>
      match s with
      | [] => none
      | c :: cs =>
          if c == quoteChar then some (String.mk acc.reverse, cs)
          else if c == backslashChar then
            match cs with
            | [] => none
            | e :: es =>
                if e == quoteChar then parseJStringAux fuel (quoteChar :: acc) es
                else if e == backslashChar then parseJStringAux fuel (backslashChar :: acc) es
                else if e == '/' then parseJStringAux fuel ('/' :: acc) es
                else if e == 'b' then parseJStringAux fuel (Char.ofNat 8 :: acc) es
                else if e == 'f' then parseJStringAux fuel (Char.ofNat 12 :: acc) es
                else if e == 'n' then parseJStringAux fuel ('\n' :: acc) es
                else if e == 'r' then parseJStringAux fuel (Char.ofNat 13 :: acc) es
                else if e == 't' then parseJStringAux fuel (Char.ofNat 9 :: acc) es
                else if e == 'u' then
                  match es with
                  | h1 :: h2 :: h3 :: h4 :: es2 =>
                      match hexVal h1, hexVal h2, hexVal h3, hexVal h4 with
                      | some a, some b, some c2, some d =>
                          parseJStringAux fuel (Char.ofNat (((a * 16 + b) * 16 + c2) * 16 + d) :: acc) es2
                      | _, _, _, _ => none
                  | _ => none
                else none
          else if c.toNat < 32 then none
          else parseJStringAux fuel (c :: acc) cs

/-- JSON number: optional minus, then zero or a nonzero-led digit run;
a following dot or exponent marker would make json.loads build a
float, which the integer model rejects. -/
def parseJNum (s : List Char) : Option (Int × List Char) :=
  let negs : Bool × List Char :=
    match s with
    | c :: cs => if c == '-' then (true, cs) else (false, s)
    | [] => (false, s)
  let neg := negs.1
  let s1 := negs.2
  match s1 with
  | [] => none
  | c :: cs =>
      if !c.isDigit then none
      else
        let digits := if c == '0' then [c] else (c :: cs).takeWhile Char.isDigit
        let rest := if c == '0' then cs else (c :: cs).dropWhile Char.isDigit
        let isFloatTail : Bool :=
          match rest with
          | r :: _ => r == '.' || r == 'e' || r == 'E'
          | [] => false
        if isFloatTail then none
        else
          let v : Int := Int.ofNat (digits.foldl (fun a d => a * 10 + (d.toNat - 48)) 0)
          some (if neg then -v else v, rest)

/-- Parsing mode for the recursive-descent JSON reader: a value, the
members of an object after its opening brace, or the elements of an
array after its opening bracket. -/
inductive JMode where
  | value
  | members
  | elems

/-- Recursive-descent model of json.loads: mode value parses one JSON
value; mode members parses object members up to and including the
closing brace, returned wrapped as jObj; mode elems parses array
elements up to and including the closing bracket, wrapped as jArr. -/
def parseJ : JMode → Nat → List Char → Option (Json × List Char)
  | _, 0, _ => none
  | .value, fuel + 1, s0 =>
      let s := s0.dropWhile isJsonWs
      match s with
      | [] => none
      | c :: cs =>
          if c == lbraceChar then
            let s1 := cs.dropWhile isJsonWs
            match s1 with
            | [] => none
            | d :: ds =>
                if d == rbraceChar then some (.jObj [], ds)
                else
                  match parseJ .members fuel s1 with
                  | some (v, rest) => some (v, rest)
                  | none => none
          else if c == lbrackChar then
            let s1 := cs.dropWhile isJsonWs
            match s1 with
            | [] => none
            | d :: ds =>
                if d == rbrackChar then some (.jArr [], ds)
                else
                  match parseJ .elems fuel s1 with
                  | some (v, rest) => some (v, rest)
                  | none => none
          else if c == quoteChar then
            match parseJStringAux (cs.length + 1) [] cs with
            | some (str, rest) => some (.jStr str, rest)
            | none => none
          else if startsWithPat "true".data s then some (.jBool true, s.drop 4)
          else if startsWithPat "false".data s then some (.jBool false, s.drop 5)
          else if startsWithPat "null".data s then some (.jNull, s.drop 4)
          else
            match parseJNum s with
            | some (n, rest) => some (.jNum n, rest)
            | none => none
  | .members, fuel + 1, s0 =>
      match s0.dropWhile isJsonWs with
      | [] => none
      | c :: cs =>
          if c == quoteChar then
            match parseJStringAux (cs.length + 1) [] cs with
            | none => none
            | some (key, rest) =>
                match rest.dropWhile isJsonWs with
                | [] => none
                | colon :: rest2 =>
                    if colon == ':' then
                      match parseJ .value fuel rest2 with
                      | none => none
                      | some (v, rest3) =>
                          match rest3.dropWhile isJsonWs with
                          | [] => none
                          | e :: es =>
                              if e == ',' then
                                match parseJ .members fuel es with
                                | some (.jObj ms, r) => some (.jObj ((key, v) :: ms), r)
                                | _ => none
                              else if e == rbraceChar then some (.jObj [(key, v)], es)
                              else none
                    else none
          else none
  | .elems, fuel + 1, s0 =>
      match parseJ .value fuel s0 with
      | none => none
      | some (v, rest) =>
          match rest.dropWhile isJsonWs with
          | [] => none
          | e :: es =>
              if e == ',' then
                match parseJ .elems fuel es with
                | some (.jArr xs, r) => some (.jArr (v :: xs), r)
                | _ => none
              else if e == rbrackChar then some (.jArr [v], es)
              else none

/-- json.loads on a whole string: one value, then only whitespace may
remain. -/
def json_loads (s : String) : Option Json :=
  match parseJ .value (s.length + 1) s.data with
  | some (v, rest) => if (rest.dropWhile isJsonWs).isEmpty then some v else none
  | none => none

/-- json.loads restricted by the isinstance(parsed, dict) filter of
the extraction helpers. -/
def json_loads_dict (s : String) : Option (List (String × Json)) :=
  match json_loads s with
  | some (.jObj d) => some d
  | _ => none

/-- _parse_json_from_markdown (src/saha/runners/_utils.py lines
88-101): scan the fenced blocks in order and return the first one
whose stripped body parses as a JSON dict. -/
def parse_json_from_markdown (output : String) : Option (List (String × Json)) :=
  ((scanFenced (output.length + 1) output.data).map (fun l => String.mk l)).findSome?
    (fun b => json_loads_dict (pyStrip b))

/-- Signed brace count of a stripped line. -/
def braceDelta (stripped : String) : Int :=
  (Int.ofNat (stripped.data.filter (fun c => c == lbraceChar)).length) -
    (Int.ofNat (stripped.data.filter (fun c => c == rbraceChar)).length)

/-- Fold state of _collect_json_blocks. -/
structure CollectSt where
  blocks : List (List String)
  current : List String
  depth : Int

/-- _collect_json_blocks (src/saha/runners/_utils.py lines 104-127):
group lines into brace-balanced blocks. -/
def collect_json_blocks (lines : List String) : List (List String) :=
  let fin := lines.foldl (fun (st : CollectSt) (line : String) =>
    let stripped := pyStrip line
    let startsBrace : Bool :=
      match stripped.data with
      | c :: _ => c == lbraceChar
      | [] => false
    if startsBrace && st.depth == 0 then
      let d := braceDelta stripped
      if d == 0 then { st with blocks := st.blocks ++ [[line]], current := [] }
      else { st with current := [line], depth := d }
    else if st.depth > 0 then
      let current := st.current ++ [line]
      let d := st.depth + braceDelta stripped
      if d ≤ 0 then { blocks := st.blocks ++ [current], current := [], depth := 0 }
      else { st with current := current, depth := d }
    else st)
    { blocks := [], current := [], depth := 0 }
  fin.blocks

/-- _parse_json_by_braces (src/saha/runners/_utils.py lines 130-144):
first brace-balanced block that parses as a JSON dict. -/
def parse_json_by_braces (output : String) : Option (List (String × Json)) :=
  let blocks := collect_json_blocks ((pyStrip output).splitOn "\n")
  blocks.findSome? (fun block => json_loads_dict (String.intercalate "\n" block))

/-- try_parse_json (src/saha/runners/_utils.py lines 147-165): empty
or whitespace-only input yields None, otherwise the markdown
extraction with the brace-scan fallback combined by Python or (an
empty dict from the markdown path is falsy and falls through). -/
def try_parse_json (output : String) : Option (List (String × Json)) :=
  if output.isEmpty || (pyStrip output).isEmpty then none
  else
    let a := parse_json_from_markdown output
    let b := parse_json_by_braces output
    match a with
    | some d => if !d.isEmpty then some d else b
    | none => b

/-! Association-list lemmas used to relate Python dict membership and
lookup. -/

theorem lookup_eq_none_iff {l : List (String × α)} {k : String} :
    l.lookup k = none ↔ k ∉ l.map Prod.fst := by
  induction l with
  | nil => simp [List.lookup]
  | cons p t ih =>
      cases p with
      | mk k' v =>
          by_cases h : k = k'
          · subst h
            simp [List.lookup]
          · simp [List.lookup, beq_false_of_ne h, ih, h]

theorem mem_of_lookup_eq_some {l : List (String × α)} {k : String} {v : α}
    (h : l.lookup k = some v) : (k, v) ∈ l := by
  induction l with
  | nil => simp [List.lookup] at h
  | cons p t ih =>
      cases p with
      | mk k' v' =>
          by_cases hk : k = k'
          · subst hk
            simp [List.lookup] at h
            simp [h]
          · simp [List.lookup, beq_false_of_ne hk] at h
            exact List.mem_cons_of_mem _ (ih h)

theorem lookup_eq_some_of_mem {l : List (String × α)} {k : String} {v : α}
    (hnd : (l.map Prod.fst).Nodup) (h : (k, v) ∈ l) : l.lookup k = some v := by
  induction l with
  | nil => simp at h
  | cons p t ih =>
      obtain ⟨k', v'⟩ := p
      rw [List.map_cons, List.nodup_cons] at hnd
      rcases List.mem_cons.mp h with h1 | h2
      · cases h1
        simp [List.lookup]
      · have hk : k ≠ k' := by
          intro hkk
          subst hkk
          exact hnd.1 (List.mem_map.mpr ⟨(k, v), h2, rfl⟩)
        simp [List.lookup, beq_false_of_ne hk]
        exact ih hnd.2 h2

/-- C8 counterexample: the raw map with prompt_tokens 0 and
completion_tokens 0 has input and output counts under recognised
aliases and no total alias, yet normalize_token_usage returns a map
with no total_tokens entry at all, not one whose total_tokens equals
the sum 0. -/
theorem C8_counterexample :
    (normalize_token_usage [("prompt_tokens", .pyInt 0), ("completion_tokens", .pyInt 0)]).map
        (fun m => m.lookup "total_tokens") = some none ∧
      some (none : Option Int) ≠ some (some (0 : Int)) :=
  ⟨rfl, by decide⟩

/-- C8 (amended): for every raw token-usage map with input and output
counts under recognised aliases and no total alias,
normalize_token_usage returns a map holding those normalized counts,
and derives total_tokens as their sum exactly when at least one of
them is non-zero (when both are zero, no total_tokens key is emitted);
in particular prompt_tokens 10 with completion_tokens 4 normalises to
input 10, output 4, total 14; and a raw map with no recognised usage
keys yields None, not zeros. -/
theorem C8_token_total_derivation :
    (∀ raw i o,
      resolveAliases raw ["total_tokens", "total_token_usage", "total"] = none →
      resolveAliases raw ["input_tokens", "prompt_tokens", "prompt", "input"] = some i →
      resolveAliases raw ["output_tokens", "completion_tokens", "completion", "output"] = some o →
      ∃ m, normalize_token_usage raw = some m ∧
        m.lookup "input_tokens" = some i ∧
        m.lookup "output_tokens" = some o ∧
        m.lookup "total_tokens" = (if i = 0 ∧ o = 0 then none else some (i + o))) ∧
    normalize_token_usage [("prompt_tokens", .pyInt 10), ("completion_tokens", .pyInt 4)] =
      some [("input_tokens", 10), ("output_tokens", 4), ("total_tokens", 14)] ∧
    (∀ raw, (∀ ta ∈ ALIAS_MAP, resolveAliases raw ta.2 = none) →
      normalize_token_usage raw = none) := by
  refine ⟨?_, rfl, ?_⟩
  · intro raw i o htot hin hout
    rcases hc1 : resolveAliases raw
        ["cache_read_input_tokens", "cache_read_tokens", "cached_tokens", "cache_read"]
      with _ | c1 <;>
    rcases hc2 : resolveAliases raw
        ["cache_creation_input_tokens", "cache_write_input_tokens", "cache_creation", "cache_write"]
      with _ | c2 <;>
    rcases hc3 : resolveAliases raw
        ["reasoning_tokens", "reasoning_output_tokens", "reasoning"]
      with _ | c3 <;>
    · simp only [normalize_token_usage, ALIAS_MAP, List.foldl, hin, hout, htot, hc1, hc2, hc3]
      split
      · next hemp => exact Bool.noConfusion hemp
      · split
        · split
          · next h =>
              refine ⟨_, rfl, rfl, rfl, ?_⟩
              rw [if_neg (fun hio => h.elim (fun hi => hi hio.1) (fun ho => ho hio.2))]
              rfl
          · next h =>
              push_neg at h
              refine ⟨_, rfl, rfl, rfl, ?_⟩
              rw [if_pos (show i = 0 ∧ o = 0 from ⟨h.1, h.2⟩)]
              rfl
        · next h => exact absurd rfl h
  · intro raw h
    have h1 := h ("input_tokens", ["input_tokens", "prompt_tokens", "prompt", "input"])
      (by simp [ALIAS_MAP])
    have h2 := h ("output_tokens", ["output_tokens", "completion_tokens", "completion", "output"])
      (by simp [ALIAS_MAP])
    have h3 := h ("cache_read_input_tokens",
      ["cache_read_input_tokens", "cache_read_tokens", "cached_tokens", "cache_read"])
      (by simp [ALIAS_MAP])
    have h4 := h ("cache_write_input_tokens",
      ["cache_creation_input_tokens", "cache_write_input_tokens", "cache_creation", "cache_write"])
      (by simp [ALIAS_MAP])
    have h5 := h ("reasoning_tokens", ["reasoning_tokens", "reasoning_output_tokens", "reasoning"])
      (by simp [ALIAS_MAP])
    have h6 := h ("total_tokens", ["total_tokens", "total_token_usage", "total"])
      (by simp [ALIAS_MAP])
    simp only [normalize_token_usage, ALIAS_MAP, List.foldl, h1, h2, h3, h4, h5, h6]
    rfl

/-- C8 witness: the amended theorem applied at the concrete raw map
prompt_tokens 7, completion_tokens 5, and at the empty raw map. -/
theorem C8_witness :
    (∃ m, normalize_token_usage [("prompt_tokens", .pyInt 7), ("completion_tokens", .pyInt 5)] =
        some m ∧
      m.lookup "input_tokens" = some 7 ∧
      m.lookup "output_tokens" = some 5 ∧
      m.lookup "total_tokens" = (if (7 : Int) = 0 ∧ (5 : Int) = 0 then none else some (7 + 5))) ∧
    normalize_token_usage [] = none :=
  ⟨C8_token_total_derivation.1 [("prompt_tokens", .pyInt 7), ("completion_tokens", .pyInt 5)]
      7 5 rfl rfl rfl,
   C8_token_total_derivation.2.2 [] (by decide)⟩

/-! Lemmas about FileChangeTracker.diff membership and order. -/

theorem diff_changed_iff {A B : List (String × (Nat × Nat))} {p : String}
    (hA : (A.map Prod.fst).Nodup) (hB : (B.map Prod.fst).Nodup) :
    p ∈ (FileChangeTracker.diff A B).1 ↔
      ∃ m m2, A.lookup p = some m ∧ B.lookup p = some m2 ∧ m ≠ m2 := by
  unfold FileChangeTracker.diff
  split
  · next hBe =>
      rw [List.isEmpty_iff] at hBe
      subst hBe
      simp [List.lookup]
  · split
    · next hBe hAe =>
        rw [List.isEmpty_iff] at hAe
        subst hAe
        simp [List.lookup]
    · next hBe hAe =>
        simp only
        rw [show pySorted (List.map (fun x => x.1)
            (List.filter
              (fun pm =>
                match List.lookup pm.1 A with
                | some m => m != pm.2
                | none => false)
              B)) = _ from rfl, pySorted, (List.perm_insertionSort _ _).mem_iff]
        constructor
        · intro hp
          rcases List.mem_map.mp hp with ⟨pm, hpm, rfl⟩
          rcases List.mem_filter.mp hpm with ⟨hmem, hcond⟩
          rcases hAl : A.lookup pm.1 with _ | m
          · rw [hAl] at hcond
            simp at hcond
          · rw [hAl] at hcond
            refine ⟨m, pm.2, rfl, ?_, ?_⟩
            · exact lookup_eq_some_of_mem hB (by
                rcases pm with ⟨p1, m1⟩
                exact hmem)
            · exact bne_iff_ne.mp hcond
        · rintro ⟨m, m2, hAl, hBl, hne⟩
          refine List.mem_map.mpr ⟨(p, m2), ?_, rfl⟩
          refine List.mem_filter.mpr ⟨mem_of_lookup_eq_some hBl, ?_⟩
          simp only [hAl]
          exact bne_iff_ne.mpr hne

theorem diff_added_iff {A B : List (String × (Nat × Nat))} {p : String}
    (hB : (B.map Prod.fst).Nodup) :
    p ∈ (FileChangeTracker.diff A B).2 ↔
      A.lookup p = none ∧ ∃ m2, B.lookup p = some m2 := by
  unfold FileChangeTracker.diff
  split
  · next hBe =>
      rw [List.isEmpty_iff] at hBe
      subst hBe
      simp [List.lookup]
  · split
    · next hBe hAe =>
        rw [List.isEmpty_iff] at hAe
        subst hAe
        simp only
        rw [show pySorted (List.map (fun x => x.1) B) = _ from rfl, pySorted,
          (List.perm_insertionSort _ _).mem_iff]
        constructor
        · intro hp
          rcases List.mem_map.mp hp with ⟨pm, hpm, rfl⟩
          exact ⟨by simp [List.lookup], pm.2, lookup_eq_some_of_mem hB (by
            rcases pm with ⟨p1, m1⟩; exact hpm)⟩
        · rintro ⟨hA0, m2, hBl⟩
          exact List.mem_map.mpr ⟨(p, m2), mem_of_lookup_eq_some hBl, rfl⟩
    · next hBe hAe =>
        simp only
        rw [show pySorted (List.filter (fun p => (List.lookup p A).isNone)
            (List.map (fun x => x.1) B)) = _ from rfl, pySorted,
          (List.perm_insertionSort _ _).mem_iff]
        constructor
        · intro hp
          rcases List.mem_filter.mp hp with ⟨hmem, hcond⟩
          rcases List.mem_map.mp hmem with ⟨pm, hpm, rfl⟩
          refine ⟨Option.isNone_iff_eq_none.mp hcond, pm.2,
            lookup_eq_some_of_mem hB (by rcases pm with ⟨p1, m1⟩; exact hpm)⟩
        · rintro ⟨hA0, m2, hBl⟩
          refine List.mem_filter.mpr ⟨List.mem_map.mpr ⟨(p, m2), mem_of_lookup_eq_some hBl, rfl⟩, ?_⟩
          simp [hA0]

theorem diff_sorted {A B : List (String × (Nat × Nat))} :
    List.Sorted (· ≤ ·) (FileChangeTracker.diff A B).1 ∧
      List.Sorted (· ≤ ·) (FileChangeTracker.diff A B).2 := by
  unfold FileChangeTracker.diff
  split
  · exact ⟨List.sorted_nil, List.sorted_nil⟩
  · split
    · exact ⟨List.sorted_nil, List.sorted_insertionSort _ _⟩
    · exact ⟨List.sorted_insertionSort _ _, List.sorted_insertionSort _ _⟩

theorem mem_take_snapshot {fs : List FsEntry} {p : String} {m : Nat × Nat}
    (h : (p, m) ∈ FileChangeTracker.take_snapshot fs) :
    ∃ e ∈ fs, p = e.relPath ∧
      e.dirs.all (fun d => !SKIP_DIRS.contains d) = true ∧
      (!SKIP_FILES.contains e.name) = true := by
  unfold FileChangeTracker.take_snapshot at h
  rcases List.mem_map.mp h with ⟨e, he, hpe⟩
  rcases List.mem_filter.mp he with ⟨hmem, hcond⟩
  rcases Bool.and_eq_true_iff.mp hcond with ⟨h1, h2⟩
  exact ⟨e, hmem, ((Prod.mk.injEq _ _ _ _).mp hpe).1.symm, h1, h2⟩

/-- C10: FileChangeTracker.diff returns exactly the modified files
(present in both snapshots with different mtime or size) and the added
files (present only in the after snapshot), each list sorted in
ascending path order; a file present before but absent after (a
deletion) appears in neither list; and every listed path comes from an
after-snapshot file outside the fixed exclusion sets (os.walk prunes
_SKIP_DIRS at every level and _SKIP_FILES by name), so excluded files
never appear. -/
theorem C10_file_change_tracker_diff (before after : List FsEntry)
    (hA : ((FileChangeTracker.take_snapshot before).map Prod.fst).Nodup)
    (hB : ((FileChangeTracker.take_snapshot after).map Prod.fst).Nodup) :
    (List.Sorted (· ≤ ·) (FileChangeTracker.diffFs before after).1 ∧
      List.Sorted (· ≤ ·) (FileChangeTracker.diffFs before after).2) ∧
    (∀ p, p ∈ (FileChangeTracker.diffFs before after).1 ↔
      ∃ m m2, (FileChangeTracker.take_snapshot before).lookup p = some m ∧
        (FileChangeTracker.take_snapshot after).lookup p = some m2 ∧ m ≠ m2) ∧
    (∀ p, p ∈ (FileChangeTracker.diffFs before after).2 ↔
      (FileChangeTracker.take_snapshot before).lookup p = none ∧
        ∃ m2, (FileChangeTracker.take_snapshot after).lookup p = some m2) ∧
    (∀ p, (FileChangeTracker.take_snapshot after).lookup p = none →
      p ∉ (FileChangeTracker.diffFs before after).1 ∧
        p ∉ (FileChangeTracker.diffFs before after).2) ∧
    (∀ p, p ∈ (FileChangeTracker.diffFs before after).1 ∨
        p ∈ (FileChangeTracker.diffFs before after).2 →
      ∃ e ∈ after, p = e.relPath ∧
        e.dirs.all (fun d => !SKIP_DIRS.contains d) = true ∧
        (!SKIP_FILES.contains e.name) = true) := by
  refine ⟨diff_sorted, fun p => diff_changed_iff hA hB, fun p => diff_added_iff hB, ?_, ?_⟩
  · intro p hnone
    constructor
    · intro hp
      rcases (diff_changed_iff hA hB).mp hp with ⟨m, m2, _, hBl, _⟩
      rw [hnone] at hBl
      exact Option.noConfusion hBl
    · intro hp
      rcases (diff_added_iff hB).mp hp with ⟨_, m2, hBl⟩
      rw [hnone] at hBl
      exact Option.noConfusion hBl
  · intro p hp
    have hBl : ∃ m2, (FileChangeTracker.take_snapshot after).lookup p = some m2 := by
      rcases hp with hp | hp
      · rcases (diff_changed_iff hA hB).mp hp with ⟨m, m2, _, hBl, _⟩
        exact ⟨m2, hBl⟩
      · exact ((diff_added_iff hB).mp hp).2
    rcases hBl with ⟨m2, hBl⟩
    exact mem_take_snapshot (mem_of_lookup_eq_some hBl)

/-- C10 witness: the theorem applied to a concrete filesystem with a
modified file, an added file, a deleted file, and a change inside an
excluded directory. -/
theorem C10_witness :
    ((FileChangeTracker.take_snapshot
        [⟨[], "b.txt", 1, 10⟩, ⟨[], "a.txt", 1, 5⟩, ⟨[".git"], "x", 1, 1⟩,
         ⟨["src"], "del.txt", 1, 1⟩]).map Prod.fst).Nodup ∧
    ((FileChangeTracker.take_snapshot
        [⟨[], "b.txt", 2, 10⟩, ⟨[], "a.txt", 1, 5⟩, ⟨[".git"], "y", 1, 1⟩,
         ⟨["src"], "new.txt", 3, 4⟩]).map Prod.fst).Nodup ∧
    ∀ p, (FileChangeTracker.take_snapshot
        [⟨[], "b.txt", 2, 10⟩, ⟨[], "a.txt", 1, 5⟩, ⟨[".git"], "y", 1, 1⟩,
         ⟨["src"], "new.txt", 3, 4⟩]).lookup p = none →
      p ∉ (FileChangeTracker.diffFs
        [⟨[], "b.txt", 1, 10⟩, ⟨[], "a.txt", 1, 5⟩, ⟨[".git"], "x", 1, 1⟩,
         ⟨["src"], "del.txt", 1, 1⟩]
        [⟨[], "b.txt", 2, 10⟩, ⟨[], "a.txt", 1, 5⟩, ⟨[".git"], "y", 1, 1⟩,
         ⟨["src"], "new.txt", 3, 4⟩]).1 ∧
      p ∉ (FileChangeTracker.diffFs
        [⟨[], "b.txt", 1, 10⟩, ⟨[], "a.txt", 1, 5⟩, ⟨[".git"], "x", 1, 1⟩,
         ⟨["src"], "del.txt", 1, 1⟩]
        [⟨[], "b.txt", 2, 10⟩, ⟨[], "a.txt", 1, 5⟩, ⟨[".git"], "y", 1, 1⟩,
         ⟨["src"], "new.txt", 3, 4⟩]).2 :=
  ⟨by decide, by decide,
   (C10_file_change_tracker_diff
      [⟨[], "b.txt", 1, 10⟩, ⟨[], "a.txt", 1, 5⟩, ⟨[".git"], "x", 1, 1⟩,
       ⟨["src"], "del.txt", 1, 1⟩]
      [⟨[], "b.txt", 2, 10⟩, ⟨[], "a.txt", 1, 5⟩, ⟨[".git"], "y", 1, 1⟩,
       ⟨["src"], "new.txt", 3, 4⟩]
      (by decide) (by decide)).2.2.2.1⟩

/-! Effect lemmas for the state primitives and orchestrator
operations, used to reason about whole runs. -/

theorem updateLast_nil_iff (l : List α) (f : α → α) :
    updateLast l f = [] ↔ l = [] := by
  unfold updateLast
  cases h : l.getLast? with
  | none =>
      simp only []
      rw [List.getLast?_eq_none_iff] at h
      simp [h]
  | some x =>
      simp only []
      constructor
      · intro hc
        exact absurd hc (by simp)
      · intro hc
        subst hc
        simp at h

theorem updateLast_getLast? (l : List α) (f : α → α) :
    (updateLast l f).getLast? = l.getLast?.map f := by
  unfold updateLast
  cases h : l.getLast? with
  | none => rfl
  | some x => simp

theorem updateLast_length (l : List α) (f : α → α) :
    (updateLast l f).length = l.length := by
  unfold updateLast
  cases h : l.getLast? with
  | none =>
      rw [List.getLast?_eq_none_iff] at h
      simp [h]
  | some x =>
      have hne : l ≠ [] := by
        intro hc
        subst hc
        simp at h
      simp [List.length_dropLast]
      have hlen : l.length ≠ 0 := fun hz => hne (List.length_eq_zero.mp hz)
      omega

theorem start_iteration_iterations (s : ExecutionState) (c : Nat) :
    (s.start_iteration c).1.iterations = s.iterations ++
      [{ iteration := s.current_iteration + 1
         started_at := c
         completed_at := none
         steps := []
         test_critique_passed := false
         dod_achieved := false
         quality_passed := false
         fix_info := none
         files_changed := []
         files_added := [] }] := rfl

theorem start_iteration_cur (s : ExecutionState) (c : Nat) :
    (s.start_iteration c).1.current_iteration = s.current_iteration + 1 := rfl

theorem start_iteration_phase (s : ExecutionState) (c : Nat) :
    (s.start_iteration c).1.current_phase = s.current_phase := rfl

theorem start_iteration_max (s : ExecutionState) (c : Nat) :
    (s.start_iteration c).1.max_iterations = s.max_iterations := rfl

theorem start_iteration_context (s : ExecutionState) (c : Nat) :
    (s.start_iteration c).1.context = s.context := rfl

theorem afterStart_ne (w : World) : (afterStart w).state.iterations ≠ [] := by
  rw [show (afterStart w).state.iterations = (w.state.start_iteration w.clock).1.iterations
    from rfl, start_iteration_iterations]
  simp

theorem record_step_phase (s : ExecutionState) (c : Nat) (ph : LoopPhase)
    (st : StepStatus) (e os : Option String) :
    (s.record_step c ph st e os).1.current_phase = s.current_phase := by
  unfold ExecutionState.record_step
  split <;> rfl

theorem record_step_max (s : ExecutionState) (c : Nat) (ph : LoopPhase)
    (st : StepStatus) (e os : Option String) :
    (s.record_step c ph st e os).1.max_iterations = s.max_iterations := by
  unfold ExecutionState.record_step
  split <;> rfl

theorem record_step_context (s : ExecutionState) (c : Nat) (ph : LoopPhase)
    (st : StepStatus) (e os : Option String) :
    (s.record_step c ph st e os).1.context = s.context := by
  unfold ExecutionState.record_step
  split <;> rfl

theorem record_step_cur (s : ExecutionState) (c : Nat) (ph : LoopPhase)
    (st : StepStatus) (e os : Option String) (h : s.iterations ≠ []) :
    (s.record_step c ph st e os).1.current_iteration = s.current_iteration := by
  unfold ExecutionState.record_step
  rw [if_neg (by simpa using h)]

theorem record_step_ne (s : ExecutionState) (c : Nat) (ph : LoopPhase)
    (st : StepStatus) (e os : Option String) :
    (s.record_step c ph st e os).1.iterations ≠ [] := by
  unfold ExecutionState.record_step
  split
  · next h =>
      intro hc
      rw [updateLast_nil_iff] at hc
      rw [start_iteration_iterations] at hc
      simp at hc
  · next h =>
      intro hc
      rw [updateLast_nil_iff] at hc
      rw [List.isEmpty_iff] at h
      exact h hc

theorem save_state (w : World) : (StateManager.save w).state = w.state := rfl

theorem save_calls (w : World) : (StateManager.save w).impl_calls = w.impl_calls := rfl

theorem save_persisted (w : World) : (StateManager.save w).persisted = some w.state := rfl

theorem update_phase_phase (w : World) (p : LoopPhase) :
    (StateManager.update_phase w p).state.current_phase = p := by
  unfold StateManager.update_phase StateManager.save
  simp only []
  rw [record_step_phase]

theorem update_phase_good (w : World) (p : LoopPhase) :
    (w.state.iterations ≠ [] →
      (StateManager.update_phase w p).state.current_iteration = w.state.current_iteration) ∧
    (StateManager.update_phase w p).state.iterations ≠ [] ∧
    (StateManager.update_phase w p).state.max_iterations = w.state.max_iterations ∧
    (StateManager.update_phase w p).state.context = w.state.context ∧
    (StateManager.update_phase w p).impl_calls = w.impl_calls := by
  unfold StateManager.update_phase StateManager.save
  simp only []
  exact ⟨fun h => record_step_cur _ _ _ _ _ _ h, record_step_ne _ _ _ _ _ _,
    record_step_max _ _ _ _ _ _, record_step_context _ _ _ _ _ _, trivial⟩

theorem complete_phase_phase (w : World) (p : LoopPhase) (os : Option String) :
    (StateManager.complete_phase w p os).state.current_phase = w.state.current_phase := by
  unfold StateManager.complete_phase StateManager.save
  simp only []
  rw [record_step_phase]

theorem complete_phase_good (w : World) (p : LoopPhase) (os : Option String) :
    (w.state.iterations ≠ [] →
      (StateManager.complete_phase w p os).state.current_iteration = w.state.current_iteration) ∧
    (StateManager.complete_phase w p os).state.iterations ≠ [] ∧
    (StateManager.complete_phase w p os).state.max_iterations = w.state.max_iterations ∧
    (StateManager.complete_phase w p os).state.context = w.state.context ∧
    (StateManager.complete_phase w p os).impl_calls = w.impl_calls := by
  unfold StateManager.complete_phase StateManager.save
  simp only []
  exact ⟨fun h => record_step_cur _ _ _ _ _ _ h, record_step_ne _ _ _ _ _ _,
    record_step_max _ _ _ _ _ _, record_step_context _ _ _ _ _ _, trivial⟩

theorem fail_phase_phase (w : World) (p : LoopPhase) (err : String) :
    (StateManager.fail_phase w p err).state.current_phase = .failed := by
  unfold StateManager.fail_phase StateManager.save
  simp only []
  rw [record_step_phase]

theorem fail_phase_good (w : World) (p : LoopPhase) (err : String) :
    (w.state.iterations ≠ [] →
      (StateManager.fail_phase w p err).state.current_iteration = w.state.current_iteration) ∧
    (StateManager.fail_phase w p err).state.iterations ≠ [] ∧
    (StateManager.fail_phase w p err).state.max_iterations = w.state.max_iterations ∧
    (StateManager.fail_phase w p err).impl_calls = w.impl_calls := by
  unfold StateManager.fail_phase StateManager.save
  simp only []
  exact ⟨fun h => record_step_cur _ _ _ _ _ _ h, record_step_ne _ _ _ _ _ _,
    record_step_max _ _ _ _ _ _, trivial⟩

theorem mark_completed_eff (w : World) :
    (StateManager.mark_completed w).state.current_phase = .completed ∧
    (StateManager.mark_completed w).state.current_iteration = w.state.current_iteration ∧
    (StateManager.mark_completed w).state.iterations = w.state.iterations ∧
    (StateManager.mark_completed w).state.max_iterations = w.state.max_iterations ∧
    (StateManager.mark_completed w).impl_calls = w.impl_calls :=
  ⟨rfl, rfl, rfl, rfl, rfl⟩

theorem mark_stopped_eff (w : World) (reason : String) :
    (StateManager.mark_stopped w reason).state.current_phase = .stopped ∧
    (StateManager.mark_stopped w reason).state.error_message = some reason ∧
    (StateManager.mark_stopped w reason).persisted =
      some (StateManager.mark_stopped w reason).state ∧
    (StateManager.mark_stopped w reason).state.iterations = w.state.iterations :=
  ⟨rfl, rfl, rfl, rfl⟩

theorem updateLastIter_eff (w : World) (f : IterationRecord → IterationRecord) :
    (updateLastIter w f).state.current_phase = w.state.current_phase ∧
    (updateLastIter w f).state.current_iteration = w.state.current_iteration ∧
    (w.state.iterations ≠ [] → (updateLastIter w f).state.iterations ≠ []) ∧
    (updateLastIter w f).state.max_iterations = w.state.max_iterations ∧
    (updateLastIter w f).state.context = w.state.context ∧
    (updateLastIter w f).impl_calls = w.impl_calls := by
  refine ⟨rfl, rfl, ?_, rfl, rfl, rfl⟩
  intro h hc
  exact h ((updateLast_nil_iff _ _).mp hc)

theorem prepare_plan_eff (w : World) (e : IterEnv) :
    (AgenticLoop.prepare_plan_progress w e).state.current_phase = w.state.current_phase ∧
    (AgenticLoop.prepare_plan_progress w e).state.current_iteration =
      w.state.current_iteration ∧
    (AgenticLoop.prepare_plan_progress w e).state.iterations = w.state.iterations ∧
    (AgenticLoop.prepare_plan_progress w e).state.max_iterations = w.state.max_iterations ∧
    (AgenticLoop.prepare_plan_progress w e).impl_calls = w.impl_calls := by
  unfold AgenticLoop.prepare_plan_progress
  split
  · exact ⟨rfl, rfl, rfl, rfl, rfl⟩
  · split
    · exact ⟨rfl, rfl, rfl, rfl, rfl⟩
    · exact ⟨rfl, rfl, rfl, rfl, rfl⟩

/-- Iteration-preservation of a per-record mutation: none of the
orchestrator's record mutations touches the iteration number. -/
theorem map_updateLast (l : List α) (f : α → α) (g : α → β)
    (hf : ∀ x, g (f x) = g x) : (updateLast l f).map g = l.map g := by
  induction l using List.reverseRecOn with
  | nil => rfl
  | append_singleton ys y ih =>
      unfold updateLast
      rw [List.getLast?_concat]
      simp only [List.dropLast_concat]
      rw [List.map_append, List.map_append]
      simp [hf]

theorem record_step_iter_map (s : ExecutionState) (c : Nat) (ph : LoopPhase)
    (st : StepStatus) (e os : Option String) (h : s.iterations ≠ []) :
    (s.record_step c ph st e os).1.iterations.map (fun r => r.iteration) =
      s.iterations.map (fun r => r.iteration) := by
  unfold ExecutionState.record_step
  rw [if_neg (by simpa using h)]
  exact map_updateLast _ _ _ (fun x => rfl)

/-- Bookkeeping invariant between the input and output world of one
orchestrator operation after the current iteration was started:
current_iteration, the iteration-number skeleton and max_iterations
are unchanged (the first two provided an iteration record exists,
which also persists), and the ghost implementation trace is only
extended. -/
def WEff (w w' : World) : Prop :=
  (w.state.iterations ≠ [] →
    (w'.state.current_iteration = w.state.current_iteration ∧
     w'.state.iterations ≠ [] ∧
     w'.state.iterations.map (fun r => r.iteration) =
       w.state.iterations.map (fun r => r.iteration))) ∧
  w'.state.max_iterations = w.state.max_iterations ∧
  ∃ l, w'.impl_calls = w.impl_calls ++ l

theorem WEff.trans {w w' w'' : World} (h1 : WEff w w') (h2 : WEff w' w'') : WEff w w'' := by
  obtain ⟨k1, m1, l1, hl1⟩ := h1
  obtain ⟨k2, m2, l2, hl2⟩ := h2
  refine ⟨?_, m2.trans m1, l1 ++ l2, by rw [hl2, hl1, List.append_assoc]⟩
  intro hne
  rcases k1 hne with ⟨e1, n1, p1⟩
  rcases k2 n1 with ⟨e2, n2, p2⟩
  exact ⟨e2.trans e1, n2, p2.trans p1⟩

theorem WEff.refl (w : World) : WEff w w :=
  ⟨fun h => ⟨rfl, h, rfl⟩, rfl, [], (List.append_nil _).symm⟩

theorem weff_of_record_world (w : World) (s : ExecutionState) (c : Nat)
    (hs : s.iterations = w.state.iterations)
    (hcur : s.current_iteration = w.state.current_iteration)
    (hmax : s.max_iterations = w.state.max_iterations)
    (ph : LoopPhase) (st : StepStatus) (e os : Option String) :
    WEff w (StateManager.save
      { w with
        state := (s.record_step c ph st e os).1
        clock := (s.record_step c ph st e os).2 }) := by
  refine ⟨?_, (record_step_max _ _ _ _ _ _).trans hmax, [], (List.append_nil _).symm⟩
  intro hne
  rw [← hs] at hne
  exact ⟨(record_step_cur _ _ _ _ _ _ hne).trans hcur, record_step_ne _ _ _ _ _ _,
    (record_step_iter_map _ _ _ _ _ _ hne).trans (by rw [hs])⟩

theorem weff_update_phase (w : World) (p : LoopPhase) :
    WEff w (StateManager.update_phase w p) := by
  unfold StateManager.update_phase
  simp only []
  refine weff_of_record_world w _ _ ?_ ?_ ?_ _ _ _ _ <;> rfl

theorem weff_complete_phase (w : World) (p : LoopPhase) (os : Option String) :
    WEff w (StateManager.complete_phase w p os) := by
  unfold StateManager.complete_phase
  simp only []
  refine weff_of_record_world w _ _ ?_ ?_ ?_ _ _ _ _ <;> rfl

theorem weff_fail_phase (w : World) (p : LoopPhase) (err : String) :
    WEff w (StateManager.fail_phase w p err) := by
  unfold StateManager.fail_phase
  simp only []
  refine weff_of_record_world w _ _ ?_ ?_ ?_ _ _ _ _ <;> rfl

theorem weff_save (w : World) : WEff w (StateManager.save w) := WEff.refl _

theorem weff_mark_completed (w : World) : WEff w (StateManager.mark_completed w) :=
  ⟨fun h => ⟨rfl, h, rfl⟩, rfl, [], (List.append_nil _).symm⟩

theorem weff_updateLastIter (w : World) (f : IterationRecord → IterationRecord)
    (hf : ∀ r, (f r).iteration = r.iteration) :
    WEff w (updateLastIter w f) := by
  refine ⟨?_, rfl, [], (List.append_nil _).symm⟩
  intro h
  refine ⟨rfl, (updateLastIter_eff w f).2.2.1 h, ?_⟩
  exact map_updateLast _ _ _ hf

theorem weff_prepare_plan (w : World) (e : IterEnv) :
    WEff w (AgenticLoop.prepare_plan_progress w e) := by
  refine ⟨?_, (prepare_plan_eff w e).2.2.2.1, [],
    by rw [(prepare_plan_eff w e).2.2.2.2, List.append_nil]⟩
  intro h
  rw [(prepare_plan_eff w e).2.2.1]
  exact ⟨(prepare_plan_eff w e).2.1, h, rfl⟩

theorem weff_set_calls (w : World) (x : List (Nat × CtxVal)) :
    WEff w { w with impl_calls := w.impl_calls ++ x } :=
  ⟨fun h => ⟨rfl, h, rfl⟩, rfl, x, rfl⟩

theorem weff_set_context (w : World) (c : List (String × CtxVal)) :
    WEff w { w with state := { w.state with context := c } } :=
  ⟨fun h => ⟨rfl, h, rfl⟩, rfl, [], (List.append_nil _).symm⟩

theorem weff_set_output (w : World) (o : Option String) :
    WEff w { w with state := { w.state with last_agent_output := o } } :=
  ⟨fun h => ⟨rfl, h, rfl⟩, rfl, [], (List.append_nil _).symm⟩

theorem weff_set_clock (w : World) (c : Nat) :
    WEff w { w with clock := c } :=
  ⟨fun h => ⟨rfl, h, rfl⟩, rfl, [], (List.append_nil _).symm⟩

theorem weff_run_implementation (cfg : LoopConfig) (e : IterEnv) (w : World) :
    WEff w (AgenticLoop.run_implementation cfg e w).2 := by
  unfold AgenticLoop.run_implementation
  simp only []
  split
  · exact WEff.trans (WEff.trans (weff_update_phase w _) (weff_set_calls _ _))
      (weff_complete_phase _ _ _)
  · exact WEff.trans (weff_update_phase w _) (weff_set_calls _ _)

theorem weff_run_test_critique (cfg : LoopConfig) (e : IterEnv) (r : SubagentResult)
    (w : World) : WEff w (AgenticLoop.run_test_critique cfg e r w).2 := by
  unfold AgenticLoop.run_test_critique
  simp only []
  split
  · exact WEff.trans (weff_update_phase w _) (weff_complete_phase _ _ _)
  · split
    · split
      · exact WEff.trans (weff_update_phase w _) (weff_complete_phase _ _ _)
      · exact WEff.trans (weff_update_phase w .test_critique)
          (by refine weff_of_record_world _ _ _ ?_ ?_ ?_ _ _ _ _ <;> rfl)
    · exact WEff.trans (weff_update_phase w _) (weff_complete_phase _ _ _)

theorem weff_run_qa (cfg : LoopConfig) (e : IterEnv) (r : SubagentResult)
    (w : World) : WEff w (AgenticLoop.run_qa cfg e r w).2 := by
  unfold AgenticLoop.run_qa
  simp only []
  split
  · exact WEff.trans (weff_update_phase w _) (weff_complete_phase _ _ _)
  · exact weff_update_phase w _

theorem weff_run_code_quality (cfg : LoopConfig) (e : IterEnv) (r : SubagentResult)
    (w : World) : WEff w (AgenticLoop.run_code_quality cfg e r w).2 := by
  unfold AgenticLoop.run_code_quality
  simp only []
  split
  · split
    · exact WEff.trans (weff_update_phase w _) (weff_complete_phase _ _ _)
    · exact WEff.trans (weff_update_phase w .code_quality)
        (by refine weff_of_record_world _ _ _ ?_ ?_ ?_ _ _ _ _ <;> rfl)
  · exact WEff.trans (weff_update_phase w _) (weff_complete_phase _ _ _)

theorem weff_run_manager (cfg : LoopConfig) (e : IterEnv) (t : Nat) (w : World) :
    WEff w (AgenticLoop.run_manager cfg e t w) := by
  unfold AgenticLoop.run_manager
  simp only []
  split
  · exact WEff.trans (weff_update_phase w _) (weff_complete_phase _ _ _)
  · exact WEff.trans (weff_update_phase w _) (weff_complete_phase _ _ _)

theorem run_manager_phase (cfg : LoopConfig) (e : IterEnv) (t : Nat) (w : World) :
    (AgenticLoop.run_manager cfg e t w).state.current_phase = .manager := by
  unfold AgenticLoop.run_manager
  simp only []
  split
  · exact (complete_phase_phase _ _ _).trans (update_phase_phase w _)
  · exact (complete_phase_phase _ _ _).trans (update_phase_phase w _)

theorem weff_rmois (cfg : LoopConfig) (e : IterEnv) (p : LoopPhase) (r : String) (w : World) :
    WEff w (AgenticLoop.run_manager_on_iteration_stop cfg e p r w) := by
  unfold AgenticLoop.run_manager_on_iteration_stop
  simp only []
  split
  · exact weff_run_manager cfg e 300 w
  · exact WEff.trans (weff_run_manager cfg e 300 w)
      ⟨fun h => ⟨rfl, h, rfl⟩, rfl, [], (List.append_nil _).symm⟩

theorem rmois_phase (cfg : LoopConfig) (e : IterEnv) (p : LoopPhase) (r : String) (w : World) :
    (AgenticLoop.run_manager_on_iteration_stop cfg e p r w).state.current_phase = p := by
  unfold AgenticLoop.run_manager_on_iteration_stop
  simp only []
  split
  · next hterm =>
      exfalso
      rw [run_manager_phase] at hterm
      rcases hterm with h | h | h <;> exact LoopPhase.noConfusion h
  · rfl

theorem weff_run_dod_check (cfg : LoopConfig) (e : IterEnv) (w : World) :
    WEff w (AgenticLoop.run_dod_check cfg e w).2 := by
  unfold AgenticLoop.run_dod_check
  simp only []
  split
  · exact weff_update_phase w _
  · split
    · exact WEff.trans (weff_update_phase w _) (weff_complete_phase _ _ _)
    · exact weff_update_phase w _

theorem run_dod_check_phase (cfg : LoopConfig) (e : IterEnv) (w : World) :
    (AgenticLoop.run_dod_check cfg e w).2.state.current_phase = .dod_check := by
  unfold AgenticLoop.run_dod_check
  simp only []
  split
  · exact update_phase_phase w _
  · split
    · exact (complete_phase_phase _ _ _).trans (update_phase_phase w _)
    · exact update_phase_phase w _

theorem run_implementation_succeeded (cfg : LoopConfig) (e : IterEnv) (w : World) :
    (AgenticLoop.run_implementation cfg e w).1.succeeded = e.impl.success := by
  unfold AgenticLoop.run_implementation
  simp only []
  split
  · next h => simp [SubagentResult.succeeded, h]
  · next h =>
      simp at h
      rw [h]
      rfl

theorem run_test_critique_passed (cfg : LoopConfig) (e : IterEnv) (r : SubagentResult)
    (w : World) :
    (AgenticLoop.run_test_critique cfg e r w).1.passed = critiquePasses e := by
  unfold AgenticLoop.run_test_critique critiquePasses
  simp only []
  split
  · rfl
  · split
    · rfl
    · rfl

theorem run_qa_dod (cfg : LoopConfig) (e : IterEnv) (r : SubagentResult) (w : World) :
    (AgenticLoop.run_qa cfg e r w).1.dod_achieved = qaDod e := by
  unfold AgenticLoop.run_qa qaDod
  simp only []
  split
  · next h => simp [h]
  · next h =>
      simp at h
      simp [h]

theorem run_code_quality_passed (cfg : LoopConfig) (e : IterEnv) (r : SubagentResult)
    (w : World) :
    (AgenticLoop.run_code_quality cfg e r w).1.passed = qualityPasses e := by
  unfold AgenticLoop.run_code_quality qualityPasses
  simp only []
  split
  · next h => simp [h]
  · next h => simp [h]

theorem run_dod_check_fst (cfg : LoopConfig) (e : IterEnv) (w : World) :
    (AgenticLoop.run_dod_check cfg e w).1 = dodDecision e := by
  unfold AgenticLoop.run_dod_check dodDecision
  simp only []
  split
  · next h =>
      simp at h
      simp [h]
  · next h =>
      simp at h
      split
      · next h2 =>
          rcases Bool.and_eq_true_iff.mp h2 with ⟨hs, hst⟩
          simp [h, hs, hst]
      · next h2 =>
          simp at h2
          simp [h]
          intro hs
          rcases h2 hs with h3
          simp [h3]

theorem run_test_critique_phase (cfg : LoopConfig) (e : IterEnv) (r : SubagentResult)
    (w : World) :
    (AgenticLoop.run_test_critique cfg e r w).2.state.current_phase = .test_critique := by
  unfold AgenticLoop.run_test_critique
  simp only []
  split
  · exact (complete_phase_phase _ _ _).trans (update_phase_phase w _)
  · split
    · split
      · exact (complete_phase_phase _ _ _).trans (update_phase_phase w _)
      · exact (record_step_phase _ _ _ _ _ _).trans (update_phase_phase w _)
    · exact (complete_phase_phase _ _ _).trans (update_phase_phase w _)

theorem run_qa_phase (cfg : LoopConfig) (e : IterEnv) (r : SubagentResult) (w : World) :
    (AgenticLoop.run_qa cfg e r w).2.state.current_phase = .qa := by
  unfold AgenticLoop.run_qa
  simp only []
  split
  · exact (complete_phase_phase _ _ _).trans (update_phase_phase w _)
  · exact update_phase_phase w _

theorem run_code_quality_phase (cfg : LoopConfig) (e : IterEnv) (r : SubagentResult)
    (w : World) :
    (AgenticLoop.run_code_quality cfg e r w).2.state.current_phase = .code_quality := by
  unfold AgenticLoop.run_code_quality
  simp only []
  split
  · split
    · exact (complete_phase_phase _ _ _).trans (update_phase_phase w _)
    · exact (record_step_phase _ _ _ _ _ _).trans (update_phase_phase w _)
  · exact (complete_phase_phase _ _ _).trans (update_phase_phase w _)

theorem weff_post_implementation (r : SubagentResult) (w : World) :
    WEff w (AgenticLoop.post_implementation r w) := by
  unfold AgenticLoop.post_implementation
  simp only []
  refine WEff.trans ?_ (weff_save _)
  refine WEff.trans ?_ (weff_set_output _ _)
  split
  · exact weff_updateLastIter _ _ (fun x => rfl)
  · exact WEff.refl _

theorem weff_loop_back (cfg : LoopConfig) (e : IterEnv) (p : LoopPhase)
    (fi : Option String) (dr : String) (w : World) :
    WEff w (AgenticLoop.loop_back cfg e p fi dr w) := by
  unfold AgenticLoop.loop_back
  simp only []
  refine WEff.trans ?_ (weff_rmois _ _ _ _ _)
  refine WEff.trans ?_ (weff_save _)
  refine WEff.trans ?_ (weff_updateLastIter _ _ (fun x => rfl))
  exact weff_set_context _ _

theorem loop_back_phase (cfg : LoopConfig) (e : IterEnv) (p : LoopPhase)
    (fi : Option String) (dr : String) (w : World) :
    (AgenticLoop.loop_back cfg e p fi dr w).state.current_phase = p := by
  unfold AgenticLoop.loop_back
  simp only []
  exact rmois_phase _ _ _ _ _

theorem weff_run_iteration_finish (cfg : LoopConfig) (e : IterEnv) (w : World) :
    WEff w (AgenticLoop.run_iteration_finish cfg e w) := by
  unfold AgenticLoop.run_iteration_finish
  simp only []
  refine WEff.trans ?_ (weff_save _)
  refine WEff.trans ?_ (weff_set_clock _ _)
  refine WEff.trans ?_ (weff_updateLastIter _ _ (fun r => rfl))
  split
  · refine WEff.trans ?_ (weff_mark_completed _)
    refine WEff.trans ?_ (weff_run_dod_check _ _ _)
    refine WEff.trans ?_ (weff_run_manager _ _ _ _)
    exact weff_updateLastIter _ _ (fun r => rfl)
  · refine WEff.trans ?_ (weff_run_dod_check _ _ _)
    refine WEff.trans ?_ (weff_run_manager _ _ _ _)
    exact weff_updateLastIter _ _ (fun r => rfl)

theorem run_iteration_finish_phase (cfg : LoopConfig) (e : IterEnv) (w : World) :
    (AgenticLoop.run_iteration_finish cfg e w).state.current_phase =
      (if dodDecision e then .completed else .dod_check) := by
  unfold AgenticLoop.run_iteration_finish
  simp only []
  split
  · next h =>
      rw [run_dod_check_fst] at h
      rw [if_pos h]
      rfl
  · next h =>
      rw [run_dod_check_fst] at h
      rw [if_neg (by simpa using h)]
      exact run_dod_check_phase cfg e _

theorem weff_run_iteration_after_qa (cfg : LoopConfig) (e : IterEnv) (r : SubagentResult)
    (w : World) : WEff w (AgenticLoop.run_iteration_after_qa cfg e r w) := by
  unfold AgenticLoop.run_iteration_after_qa
  simp only []
  split
  · refine WEff.trans ?_ (weff_loop_back _ _ _ _ _ _)
    refine WEff.trans ?_ (weff_run_code_quality _ _ _ _)
    exact weff_updateLastIter _ _ (fun x => rfl)
  · refine WEff.trans ?_ (weff_run_iteration_finish _ _ _)
    refine WEff.trans ?_ (weff_run_code_quality _ _ _ _)
    exact weff_updateLastIter _ _ (fun x => rfl)

theorem run_iteration_after_qa_phase (cfg : LoopConfig) (e : IterEnv) (r : SubagentResult)
    (w : World) :
    (AgenticLoop.run_iteration_after_qa cfg e r w).state.current_phase =
      (if !qualityPasses e then .code_quality
       else if dodDecision e then .completed else .dod_check) := by
  unfold AgenticLoop.run_iteration_after_qa
  simp only []
  split
  · next h =>
      rw [run_code_quality_passed] at h
      rw [if_pos h]
      exact loop_back_phase _ _ _ _ _ _
  · next h =>
      rw [run_code_quality_passed] at h
      rw [if_neg (by simpa using h)]
      exact run_iteration_finish_phase _ _ _

theorem weff_run_iteration_after_critique (cfg : LoopConfig) (e : IterEnv)
    (r : SubagentResult) (w : World) :
    WEff w (AgenticLoop.run_iteration_after_critique cfg e r w) := by
  unfold AgenticLoop.run_iteration_after_critique
  simp only []
  split
  · refine WEff.trans ?_ (weff_loop_back _ _ _ _ _ _)
    refine WEff.trans ?_ (weff_run_qa _ _ _ _)
    exact weff_updateLastIter _ _ (fun x => rfl)
  · refine WEff.trans ?_ (weff_run_iteration_after_qa _ _ _ _)
    refine WEff.trans ?_ (weff_run_qa _ _ _ _)
    exact weff_updateLastIter _ _ (fun x => rfl)

theorem run_iteration_after_critique_phase (cfg : LoopConfig) (e : IterEnv)
    (r : SubagentResult) (w : World) :
    (AgenticLoop.run_iteration_after_critique cfg e r w).state.current_phase =
      (if !qaDod e then .qa
       else if !qualityPasses e then .code_quality
       else if dodDecision e then .completed else .dod_check) := by
  unfold AgenticLoop.run_iteration_after_critique
  simp only []
  split
  · next h =>
      rw [run_qa_dod] at h
      rw [if_pos h]
      exact loop_back_phase _ _ _ _ _ _
  · next h =>
      rw [run_qa_dod] at h
      rw [if_neg (by simpa using h)]
      exact run_iteration_after_qa_phase _ _ _ _

theorem weff_run_iteration_after_impl (cfg : LoopConfig) (e : IterEnv)
    (r : SubagentResult) (w : World) :
    WEff w (AgenticLoop.run_iteration_after_impl cfg e r w) := by
  unfold AgenticLoop.run_iteration_after_impl
  simp only []
  split
  · exact WEff.trans (WEff.trans (weff_post_implementation _ w) (weff_run_test_critique _ _ _ _))
      (weff_loop_back _ _ _ _ _ _)
  · exact WEff.trans (WEff.trans (weff_post_implementation _ w) (weff_run_test_critique _ _ _ _))
      (weff_run_iteration_after_critique _ _ _ _)

theorem run_iteration_after_impl_phase (cfg : LoopConfig) (e : IterEnv)
    (r : SubagentResult) (w : World) :
    (AgenticLoop.run_iteration_after_impl cfg e r w).state.current_phase =
      (if !critiquePasses e then .test_critique
       else if !qaDod e then .qa
       else if !qualityPasses e then .code_quality
       else if dodDecision e then .completed else .dod_check) := by
  unfold AgenticLoop.run_iteration_after_impl
  simp only []
  split
  · next h =>
      rw [run_test_critique_passed] at h
      rw [if_pos h]
      exact loop_back_phase _ _ _ _ _ _
  · next h =>
      rw [run_test_critique_passed] at h
      rw [if_neg (by simpa using h)]
      exact run_iteration_after_critique_phase _ _ _ _

theorem weff_afterStart_tail (cfg : LoopConfig) (env : Nat → IterEnv) (w : World) :
    WEff (afterStart w) (AgenticLoop.run_iteration cfg env w) := by
  unfold AgenticLoop.run_iteration
  simp only []
  split
  · exact WEff.trans (WEff.trans (WEff.trans (weff_prepare_plan _ _)
      (weff_run_implementation _ _ _)) (weff_rmois _ _ _ _ _)) (weff_fail_phase _ _ _)
  · exact WEff.trans (WEff.trans (weff_prepare_plan _ _)
      (weff_run_implementation _ _ _)) (weff_run_iteration_after_impl _ _ _ _)

theorem run_iteration_eff (cfg : LoopConfig) (env : Nat → IterEnv) (w : World) :
    (AgenticLoop.run_iteration cfg env w).state.current_iteration =
      w.state.current_iteration + 1 ∧
    (AgenticLoop.run_iteration cfg env w).state.iterations ≠ [] ∧
    (AgenticLoop.run_iteration cfg env w).state.max_iterations = w.state.max_iterations := by
  have H := weff_afterStart_tail cfg env w
  obtain ⟨hc, hn, hm⟩ := H.1 (afterStart_ne w)
  exact ⟨hc, hn, H.2.1⟩

theorem run_iteration_phase_spec (cfg : LoopConfig) (env : Nat → IterEnv) (w : World) :
    (AgenticLoop.run_iteration cfg env w).state.current_phase =
      (let e := env (w.state.current_iteration + 1)
       if !e.impl.success then .failed
       else if !critiquePasses e then .test_critique
       else if !qaDod e then .qa
       else if !qualityPasses e then .code_quality
       else if dodDecision e then .completed else .dod_check) := by
  unfold AgenticLoop.run_iteration
  simp only []
  rw [show (afterStart w).state.current_iteration = w.state.current_iteration + 1 from rfl]
  split
  · next h =>
      rw [run_implementation_succeeded] at h
      rw [if_pos h]
      exact fail_phase_phase _ _ _
  · next h =>
      rw [run_implementation_succeeded] at h
      rw [if_neg (by simpa using h)]
      exact run_iteration_after_impl_phase _ _ _ _

/-- The monotonic-iteration invariant of an ExecutionState:
current_iteration counts the iteration records, and the records carry
the iteration numbers 1, 2, ..., current_iteration in order. -/
def IterInv (s : ExecutionState) : Prop :=
  s.current_iteration = s.iterations.length ∧
  s.iterations.map (fun r => r.iteration) = List.range' 1 s.iterations.length

instance (s : ExecutionState) : Decidable (IterInv s) := by
  unfold IterInv
  infer_instance

theorem iterInv_start_iteration (s : ExecutionState) (c : Nat) (h : IterInv s) :
    IterInv (s.start_iteration c).1 := by
  obtain ⟨hc, hm⟩ := h
  constructor
  · rw [start_iteration_cur, start_iteration_iterations]
    simp [hc]
  · rw [start_iteration_iterations]
    simp only [List.map_append, List.map_cons, List.map_nil, List.length_append,
      List.length_cons, List.length_nil]
    rw [hm, hc]
    rw [List.range'_concat]
    simp [Nat.add_comm]

theorem iterInv_updateLast (s : ExecutionState) (f : IterationRecord → IterationRecord)
    (hf : ∀ r, (f r).iteration = r.iteration) (h : IterInv s) :
    IterInv { s with iterations := updateLast s.iterations f } := by
  obtain ⟨hc, hm⟩ := h
  have hmap := map_updateLast s.iterations f (fun r => r.iteration) hf
  have hlen : (updateLast s.iterations f).length = s.iterations.length := by
    have hx := congrArg List.length hmap
    simpa using hx
  exact ⟨by simpa [hlen] using hc, by rw [hmap, hlen, hm]⟩

theorem iterInv_record_step (s : ExecutionState) (c : Nat) (ph : LoopPhase)
    (st : StepStatus) (e os : Option String) (h : IterInv s) :
    IterInv (s.record_step c ph st e os).1 := by
  unfold ExecutionState.record_step
  simp only []
  split
  · exact iterInv_updateLast _ _ (fun r => rfl) (iterInv_start_iteration s c h)
  · exact iterInv_updateLast _ _ (fun r => rfl) h

theorem iterInv_of_weff {w w' : World} (H : WEff w w') (hne : w.state.iterations ≠ [])
    (h : IterInv w.state) : IterInv w'.state := by
  obtain ⟨hc, hn, hm⟩ := H.1 hne
  obtain ⟨h1, h2⟩ := h
  have hlen : w'.state.iterations.length = w.state.iterations.length := by
    have hx := congrArg List.length hm
    simpa using hx
  exact ⟨by rw [hc, hlen]; exact h1, by rw [hm, hlen]; exact h2⟩

theorem iterInv_afterStart (w : World) (h : IterInv w.state) : IterInv (afterStart w).state :=
  iterInv_start_iteration w.state w.clock h

theorem iterInv_run_iteration (cfg : LoopConfig) (env : Nat → IterEnv) (w : World)
    (h : IterInv w.state) : IterInv (AgenticLoop.run_iteration cfg env w).state :=
  iterInv_of_weff (weff_afterStart_tail cfg env w) (afterStart_ne w)
    (iterInv_afterStart w h)

theorem iterInv_runWhile (cfg : LoopConfig) (env : Nat → IterEnv) (fuel : Nat) (w : World)
    (h : IterInv w.state) : IterInv (AgenticLoop.runWhile cfg env fuel w).state := by
  induction fuel generalizing w with
  | zero => exact h
  | succ n ih =>
      unfold AgenticLoop.runWhile
      split
      · exact ih _ (iterInv_run_iteration cfg env w h)
      · exact h

theorem iterInv_run (cfg : LoopConfig) (avail : List String) (env : Nat → IterEnv)
    (w : World) : IterInv (AgenticLoop.run cfg avail env w).state := by
  unfold AgenticLoop.run
  simp only []
  exact iterInv_runWhile cfg env cfg.max_iterations _ ⟨rfl, rfl⟩

theorem chain_succ_range (s n : Nat) :
    List.Chain' (fun a b => b = a + 1) (List.range' s n) := by
  induction n generalizing s with
  | zero => exact List.chain'_nil
  | succ n ih =>
      rw [List.range'_succ]
      cases n with
      | zero => exact List.chain'_singleton _
      | succ m =>
          rw [List.range'_succ]
          refine List.chain'_cons.mpr ⟨rfl, ?_⟩
          rw [← List.range'_succ]
          exact ih (s + 1)

theorem chain_of_iter_map (l : List IterationRecord) (n : Nat)
    (h : l.map (fun r => r.iteration) = List.range' 1 n) :
    List.Chain' (fun a b => b.iteration = a.iteration + 1) l := by
  have hr := chain_succ_range 1 n
  rw [← h] at hr
  exact (List.chain'_map (fun r : IterationRecord => r.iteration)).mp hr

/-- C9: in the final Execution State of every run, current_iteration
equals the number of Iteration Records and each consecutive pair of
Iteration Records carries consecutive iteration numbers; the invariant
behind this is preserved by ExecutionState.start_iteration and
ExecutionState.record_step. -/
theorem C9_monotonic_iteration_invariant (cfg : LoopConfig) (avail : List String)
    (env : Nat → IterEnv) (w : World) :
    ((AgenticLoop.run cfg avail env w).state.current_iteration =
        (AgenticLoop.run cfg avail env w).state.iterations.length ∧
      List.Chain' (fun a b => b.iteration = a.iteration + 1)
        (AgenticLoop.run cfg avail env w).state.iterations) ∧
    (∀ s c, IterInv s → IterInv (s.start_iteration c).1) ∧
    (∀ s c ph st e os, IterInv s → IterInv (s.record_step c ph st e os).1) := by
  refine ⟨⟨(iterInv_run cfg avail env w).1, ?_⟩, iterInv_start_iteration, iterInv_record_step⟩
  exact chain_of_iter_map _ _ (iterInv_run cfg avail env w).2

theorem c6_runWhile (cfg : LoopConfig) (env : Nat → IterEnv)
    (henv : ∀ k, (env k).impl.success = true ∧ critiquePasses (env k) = true ∧
      qaDod (env k) = false) :
    ∀ fuel (w : World),
      w.state.current_iteration + fuel = w.state.max_iterations →
      ¬(w.state.current_phase = .completed ∨ w.state.current_phase = .failed ∨
        w.state.current_phase = .stopped) →
      (AgenticLoop.runWhile cfg env fuel w).state.current_iteration =
        w.state.max_iterations ∧
      ((AgenticLoop.runWhile cfg env fuel w).state.current_phase = w.state.current_phase ∨
       (AgenticLoop.runWhile cfg env fuel w).state.current_phase = .qa) := by
  intro fuel
  induction fuel with
  | zero =>
      intro w harith hph
      refine ⟨?_, Or.inl rfl⟩
      show w.state.current_iteration = w.state.max_iterations
      omega
  | succ n ih =>
      intro w harith hph
      have hsc : AgenticLoop.should_continue w.state = true := by
        unfold AgenticLoop.should_continue
        rw [if_neg hph, if_neg (by omega)]
      unfold AgenticLoop.runWhile
      rw [if_pos hsc]
      obtain ⟨hcur, hne, hmax⟩ := run_iteration_eff cfg env w
      obtain ⟨hi, hcrit, hqa⟩ := henv (w.state.current_iteration + 1)
      have hspec := run_iteration_phase_spec cfg env w
      simp only [hi, hcrit, hqa, Bool.not_true, Bool.not_false, Bool.false_eq_true,
        if_false, if_true, ite_true, ite_false] at hspec
      have harith' : (AgenticLoop.run_iteration cfg env w).state.current_iteration + n =
          (AgenticLoop.run_iteration cfg env w).state.max_iterations := by
        rw [hcur, hmax]
        omega
      have hph' : ¬((AgenticLoop.run_iteration cfg env w).state.current_phase = .completed ∨
          (AgenticLoop.run_iteration cfg env w).state.current_phase = .failed ∨
          (AgenticLoop.run_iteration cfg env w).state.current_phase = .stopped) := by
        rw [hspec]
        intro hcon
        rcases hcon with hx | hx | hx <;> exact LoopPhase.noConfusion hx
      obtain ⟨hfc, hfp⟩ := ih (AgenticLoop.run_iteration cfg env w) harith' hph'
      refine ⟨hfc.trans hmax, ?_⟩
      rcases hfp with hx | hx
      · exact Or.inr (hx.trans hspec)
      · exact Or.inr hx

/-- C6: when QA fails on every iteration while Implementation succeeds
and TestCritique passes, the run exhausts the iteration ceiling:
current_iteration ends equal to max_iterations and the final phase is
none of completed, failed and stopped. -/
theorem C6_iteration_ceiling_boundary (cfg : LoopConfig) (avail : List String)
    (env : Nat → IterEnv) (w : World)
    (henv : ∀ k, (env k).impl.success = true ∧ critiquePasses (env k) = true ∧
      qaDod (env k) = false) :
    (AgenticLoop.run cfg avail env w).state.current_iteration = cfg.max_iterations ∧
    (AgenticLoop.run cfg avail env w).state.current_phase ≠ .completed ∧
    (AgenticLoop.run cfg avail env w).state.current_phase ≠ .failed ∧
    (AgenticLoop.run cfg avail env w).state.current_phase ≠ .stopped := by
  unfold AgenticLoop.run
  simp only []
  have h := c6_runWhile cfg env henv cfg.max_iterations
    (StateManager.create (StateManager.delete { w with impl_calls := [] }) cfg.task_id
      cfg.task_path cfg.max_iterations (pyOrList cfg.enabled_tools avail))
    (by show 0 + cfg.max_iterations = cfg.max_iterations; omega)
    (by intro hcon; rcases hcon with hx | hx | hx <;> exact LoopPhase.noConfusion hx)
  refine ⟨h.1, ?_, ?_, ?_⟩ <;> rcases h.2 with hx | hx <;> rw [hx] <;>
    exact fun hcon => LoopPhase.noConfusion hcon

/-- Fixture: a successful backend result carrying the structured dict d. -/
def rrOk (d : List (String × PyVal)) : RunnerResult :=
  { success := true
    output := "ok"
    structured_output := some d
    error := none
    tokens_used := 0
    token_usage := none
    exit_code := 0 }

/-- Fixture: a failed backend result. -/
def rrFail : RunnerResult :=
  { success := false
    output := ""
    structured_output := none
    error := some "agent error"
    tokens_used := 0
    token_usage := none
    exit_code := 1 }

/-- Fixture: iteration environment where Implementation succeeds, the
critique agent is not configured and QA returns no dod_achieved. -/
def eC6 : IterEnv :=
  { impl := rrOk []
    critique_agent_exists := false
    critique := rrFail
    qa := rrOk []
    quality := rrFail
    manager_agent_exists := false
    manager := rrFail
    dod_agent_exists := false
    dod := rrFail
    plan_select := none
    pytest_stdout := "" }

/-- Fixture: a three-iteration loop configuration. -/
def cfgC6 : LoopConfig :=
  { task_id := "task-1"
    task_path := "tasks/task-1"
    max_iterations := 3
    enabled_tools := none
    playwright_enabled := false
    verification_scripts := [] }

/-- Fixture: a fresh idle ExecutionState. -/
def sInit : ExecutionState :=
  { task_id := "task-1"
    task_path := "tasks/task-1"
    current_phase := .idle
    current_iteration := 0
    max_iterations := 3
    started_at := none
    completed_at := none
    error_message := none
    iterations := []
    enabled_tools := []
    context := []
    last_agent_output := none }

/-- Fixture: the initial world before a run. -/
def wInit : World :=
  { state := sInit
    persisted := none
    impl_calls := []
    clock := 0 }

/-- Fixture: the constant iteration environment of the C6 scenario. -/
def envC6 : Nat → IterEnv := fun _ => eC6

theorem C6_witness :
    (∀ k, (envC6 k).impl.success = true ∧
      critiquePasses (envC6 k) = true ∧ qaDod (envC6 k) = false) ∧
    ((AgenticLoop.run cfgC6 [] envC6 wInit).state.current_iteration =
        cfgC6.max_iterations ∧
      (AgenticLoop.run cfgC6 [] envC6 wInit).state.current_phase ≠ .completed ∧
      (AgenticLoop.run cfgC6 [] envC6 wInit).state.current_phase ≠ .failed ∧
      (AgenticLoop.run cfgC6 [] envC6 wInit).state.current_phase ≠ .stopped) :=
  ⟨fun k => ⟨rfl, (by decide : critiquePasses eC6 = true), (by decide : qaDod eC6 = false)⟩,
   C6_iteration_ceiling_boundary cfgC6 [] envC6 wInit
     (fun k => ⟨rfl, (by decide : critiquePasses eC6 = true), (by decide : qaDod eC6 = false)⟩)⟩

/-- C5: the DoD check reports complete exactly when the agent spec
exists, the backend succeeds and the structured output's task_complete
field is truthy; a missing agent, a failed backend or absent/empty
structured output yields not-complete, and on that path the iteration
never reaches the completed phase. -/
theorem C5_dod_requires_affirmative_signal (cfg : LoopConfig) (e : IterEnv) (w : World)
    (env : Nat → IterEnv) :
    ((AgenticLoop.run_dod_check cfg e w).1 = true ↔
      (e.dod_agent_exists = true ∧ e.dod.success = true ∧ structuredTruthy e.dod = true ∧
        (pyDictGet (structuredD e.dod) "task_complete" (.pyBool false)).truthy = true)) ∧
    ((e.dod_agent_exists = false ∨ e.dod.success = false ∨ structuredTruthy e.dod = false) →
      (AgenticLoop.run_dod_check cfg e w).1 = false) ∧
    (dodDecision (env (w.state.current_iteration + 1)) = false →
      (AgenticLoop.run_iteration cfg env w).state.current_phase ≠ .completed) := by
  refine ⟨?_, ?_, ?_⟩
  · rw [run_dod_check_fst]
    unfold dodDecision
    simp [Bool.and_eq_true, and_assoc]
  · intro hcase
    rw [run_dod_check_fst]
    unfold dodDecision
    rcases hcase with hx | hx | hx <;> simp [hx]
  · intro hd hcon
    have hspec := run_iteration_phase_spec cfg env w
    rw [hcon] at hspec
    simp only [hd, Bool.not_true, Bool.not_false, Bool.false_eq_true, if_false, if_true,
      ite_true, ite_false] at hspec
    split at hspec
    · exact LoopPhase.noConfusion hspec
    · split at hspec
      · exact LoopPhase.noConfusion hspec
      · split at hspec
        · exact LoopPhase.noConfusion hspec
        · split at hspec
          · exact LoopPhase.noConfusion hspec
          · exact LoopPhase.noConfusion hspec

theorem critiquePasses_of_missing_or_error (e : IterEnv)
    (h : e.critique_agent_exists = false ∨ e.critique.success = false ∨
      structuredTruthy e.critique = false) : critiquePasses e = true := by
  unfold critiquePasses
  rcases h with hx | hx | hx <;> simp [hx]

/-- C7: a TestCritique invocation with a missing agent spec or an
erroring backend (no success or no structured output) passes through:
the phase result has passed = true and no fix_info, and the iteration
advances to the QA gate instead of looping back. -/
theorem C7_critique_pass_through (cfg : LoopConfig) (env : Nat → IterEnv)
    (ir : SubagentResult) (w : World)
    (h : (env (w.state.current_iteration + 1)).critique_agent_exists = false ∨
      (env (w.state.current_iteration + 1)).critique.success = false ∨
      structuredTruthy (env (w.state.current_iteration + 1)).critique = false)
    (himpl : (env (w.state.current_iteration + 1)).impl.success = true) :
    (AgenticLoop.run_test_critique cfg (env (w.state.current_iteration + 1)) ir
        w).1.passed = true ∧
    (AgenticLoop.run_test_critique cfg (env (w.state.current_iteration + 1)) ir
        w).1.fix_info = none ∧
    (AgenticLoop.run_iteration cfg env w).state.current_phase =
      (if !qaDod (env (w.state.current_iteration + 1)) then .qa
       else if !qualityPasses (env (w.state.current_iteration + 1)) then .code_quality
       else if dodDecision (env (w.state.current_iteration + 1)) then .completed
       else .dod_check) := by
  have hcrit := critiquePasses_of_missing_or_error _ h
  refine ⟨?_, ?_, ?_⟩
  · unfold AgenticLoop.run_test_critique
    rcases h with hx | hx | hx <;> simp [hx] <;> split <;> rfl
  · unfold AgenticLoop.run_test_critique
    rcases h with hx | hx | hx <;> simp [hx] <;> split <;> rfl
  · have hspec := run_iteration_phase_spec cfg env w
    simp only [himpl, hcrit, Bool.not_true, Bool.not_false, Bool.false_eq_true,
      if_false, if_true, ite_true, ite_false] at hspec
    exact hspec

/-- Fixture: iteration environment where Implementation succeeds and
the critique backend fails. -/
def eC7 : IterEnv :=
  { impl := rrOk []
    critique_agent_exists := true
    critique := rrFail
    qa := rrOk []
    quality := rrFail
    manager_agent_exists := false
    manager := rrFail
    dod_agent_exists := false
    dod := rrFail
    plan_select := none
    pytest_stdout := "" }

/-- Fixture: the constant iteration environment of the C7 scenario. -/
def envC7 : Nat → IterEnv := fun _ => eC7

/-- Fixture: the SubagentResult of a successful Implementation. -/
def irC7 : SubagentResult :=
  { agent_name := "implementation"
    status := .success
    output := "ok"
    structured_output := []
    error := none
    tokens_used := 0 }

theorem C7_witness :
    ((envC7 (wInit.state.current_iteration + 1)).critique_agent_exists = false ∨
      (envC7 (wInit.state.current_iteration + 1)).critique.success = false ∨
      structuredTruthy (envC7 (wInit.state.current_iteration + 1)).critique = false) ∧
    (envC7 (wInit.state.current_iteration + 1)).impl.success = true ∧
    ((AgenticLoop.run_test_critique cfgC6 (envC7 (wInit.state.current_iteration + 1)) irC7
        wInit).1.passed = true ∧
      (AgenticLoop.run_test_critique cfgC6 (envC7 (wInit.state.current_iteration + 1)) irC7
        wInit).1.fix_info = none ∧
      (AgenticLoop.run_iteration cfgC6 envC7 wInit).state.current_phase =
        (if !qaDod (envC7 (wInit.state.current_iteration + 1)) then .qa
         else if !qualityPasses (envC7 (wInit.state.current_iteration + 1)) then .code_quality
         else if dodDecision (envC7 (wInit.state.current_iteration + 1)) then .completed
         else .dod_check)) :=
  ⟨Or.inr (Or.inl (by decide)), by decide,
   C7_critique_pass_through cfgC6 envC7 irC7 wInit (Or.inr (Or.inl (by decide)))
     (by decide)⟩

/-- Whether the current (last) Iteration Record holds a completed
Manager step. -/
def hasManagerStep (s : ExecutionState) : Bool :=
  match s.iterations.getLast? with
  | some r => r.steps.any (fun st => st.phase == .manager && st.status == .completed)
  | none => false

theorem hasManagerStep_record_step (s : ExecutionState) (c : Nat) (e os : Option String) :
    hasManagerStep (s.record_step c .manager .completed e os).1 = true := by
  unfold ExecutionState.record_step
  simp only []
  have hne : (if s.iterations.isEmpty = true then s.start_iteration c
      else (s, c)).1.iterations ≠ [] := by
    split
    · rw [start_iteration_iterations]
      simp
    · next h => simpa [List.isEmpty_iff] using h
  generalize hX : (if s.iterations.isEmpty = true then s.start_iteration c
      else (s, c)) = X at hne ⊢
  unfold hasManagerStep
  cases hg : X.1.iterations.getLast? with
  | none => exact absurd (List.getLast?_eq_none_iff.mp hg) hne
  | some r =>
      rw [updateLast_getLast?, hg]
      simp [List.any_append]

theorem hasManagerStep_run_manager (cfg : LoopConfig) (e : IterEnv) (t : Nat) (w : World) :
    hasManagerStep (AgenticLoop.run_manager cfg e t w).state = true := by
  unfold AgenticLoop.run_manager
  simp only []
  split <;> exact hasManagerStep_record_step _ _ _ _

/-- C2: handling a first interrupt always leaves the Execution State
Stopped with the interrupt reason recorded and persisted; and when the
manager-update guard allows it (and no second interrupt arrived), a
completed best-effort Manager step stands in the current Iteration
Record of the final state. -/
theorem C2_interrupt_marks_stopped (cfg : LoopConfig) (env : Nat → IterEnv) (ic : Nat)
    (w : World) :
    ((AgenticLoop.handle_interrupt cfg env ic w).state.current_phase = .stopped ∧
      (AgenticLoop.handle_interrupt cfg env ic w).state.error_message =
        some "Interrupted by user" ∧
      (AgenticLoop.handle_interrupt cfg env ic w).persisted =
        some (AgenticLoop.handle_interrupt cfg env ic w).state) ∧
    (AgenticLoop.should_run_manager_on_interrupt w.state = true → ic < 2 →
      hasManagerStep (AgenticLoop.handle_interrupt cfg env ic w).state = true) := by
  constructor
  · unfold AgenticLoop.handle_interrupt
    simp only []
    split <;> exact ⟨rfl, rfl, rfl⟩
  · intro h1 h2
    unfold AgenticLoop.handle_interrupt
    simp only []
    rw [if_pos ⟨h1, h2⟩]
    exact hasManagerStep_run_manager cfg (env w.state.current_iteration) 10 w

/-- Fixture: a persisted STOPPED state. -/
def sStopped : ExecutionState :=
  { sInit with current_phase := .stopped }

/-- Fixture: a world whose persisted state is STOPPED. -/
def wC4 : World :=
  { state := sInit
    persisted := some sStopped
    impl_calls := []
    clock := 0 }

/-- C4 counterexample: a persisted state in the terminal phase STOPPED
is not rejected by resume — the call returns ok and re-enters the
loop, refuting the claim for the Stopped member of the terminal set. -/
theorem C4_counterexample :
    wC4.persisted = some sStopped ∧ sStopped.current_phase = .stopped ∧
    (∃ w', AgenticLoop.resume wC4 [] envC6 = .ok w') :=
  ⟨rfl, rfl, ⟨_, rfl⟩⟩

/-- C4 (corrected): resume of a persisted state is rejected with an
error exactly when its phase is COMPLETED or FAILED; a STOPPED
persisted state is accepted and the loop re-entered. -/
theorem C4_resume_rejects_completed_failed_only (w : World) (avail : List String)
    (env : Nat → IterEnv) (st : ExecutionState) (hp : w.persisted = some st) :
    ((∃ err, AgenticLoop.resume w avail env = .error err) ↔
      (st.current_phase = .completed ∨ st.current_phase = .failed)) ∧
    (st.current_phase = .stopped →
      ∃ w', AgenticLoop.resume w avail env = .ok w') := by
  unfold AgenticLoop.resume
  simp only [hp]
  constructor
  · by_cases hc : st.current_phase = .completed ∨ st.current_phase = .failed
    · rw [if_pos hc]
      simp [hc]
    · rw [if_neg hc]
      simp [hc]
  · intro hs
    rw [if_neg (by rw [hs]; intro hcon; rcases hcon with hx | hx <;>
      exact LoopPhase.noConfusion hx)]
    exact ⟨_, rfl⟩

theorem C4_witness :
    wC4.persisted = some sStopped ∧
    (((∃ err, AgenticLoop.resume wC4 [] envC6 = .error err) ↔
        (sStopped.current_phase = .completed ∨ sStopped.current_phase = .failed)) ∧
      (sStopped.current_phase = .stopped →
        ∃ w', AgenticLoop.resume wC4 [] envC6 = .ok w')) :=
  ⟨rfl, C4_resume_rejects_completed_failed_only wC4 [] envC6 sStopped rfl⟩

theorem lookup_map_setkey (l : List (String × CtxVal)) (k k' : String) (v : CtxVal)
    (h : (k == k') = false) :
    (l.map (fun p => if p.1 == k' then (k', v) else p)).lookup k = l.lookup k := by
  induction l with
  | nil => rfl
  | cons p t ih =>
      obtain ⟨pa, pb⟩ := p
      simp only [List.map_cons]
      split
      · next hp =>
          have hpk : pa = k' := by simpa using hp
          subst hpk
          simp only [List.lookup, h]
          exact ih
      · next hp =>
          cases hk : k == pa
          · simp only [List.lookup, hk]
            exact ih
          · simp only [List.lookup, hk]

theorem lookup_append_single_ne (l : List (String × CtxVal)) (k k' : String) (v : CtxVal)
    (h : (k == k') = false) : (l ++ [(k', v)]).lookup k = l.lookup k := by
  induction l with
  | nil =>
      simp only [List.nil_append, List.lookup, h]
  | cons p t ih =>
      obtain ⟨pa, pb⟩ := p
      cases hk : k == pa
      · simp only [List.cons_append, List.lookup, hk]
        exact ih
      · simp only [List.cons_append, List.lookup, hk]

theorem lookup_ctxSet_ne (ctx : List (String × CtxVal)) (k k' : String) (v : CtxVal)
    (h : (k == k') = false) : (ctxSet ctx k' v).lookup k = ctx.lookup k := by
  unfold ctxSet
  split
  · exact lookup_map_setkey ctx k k' v h
  · exact lookup_append_single_ne ctx k k' v h

theorem pyCtxGet_ctxSet_ne (ctx : List (String × CtxVal)) (k k' : String) (v : CtxVal)
    (h : (k == k') = false) : pyCtxGet (ctxSet ctx k' v) k = pyCtxGet ctx k := by
  unfold pyCtxGet
  rw [lookup_ctxSet_ne ctx k k' v h]

theorem prepare_plan_fixinfo (w : World) (e : IterEnv) :
    pyCtxGet (AgenticLoop.prepare_plan_progress w e).state.context "fix_info" =
      pyCtxGet w.state.context "fix_info" := by
  unfold AgenticLoop.prepare_plan_progress
  split
  · rfl
  · split
    · rfl
    · exact pyCtxGet_ctxSet_ne w.state.context "fix_info" "current_plan_phase" _ (by decide)

theorem run_implementation_calls (cfg : LoopConfig) (e : IterEnv) (w : World)
    (hne : w.state.iterations ≠ []) :
    (AgenticLoop.run_implementation cfg e w).2.impl_calls =
      w.impl_calls ++ [(w.state.current_iteration, pyCtxGet w.state.context "fix_info")] := by
  have hcur := (update_phase_good w .implementation).1 hne
  have hctx := (update_phase_good w .implementation).2.2.2.1
  unfold AgenticLoop.run_implementation
  simp only []
  split <;>
  · show (StateManager.update_phase w .implementation).impl_calls ++
      [((StateManager.update_phase w .implementation).state.current_iteration,
        pyCtxGet (StateManager.update_phase w .implementation).state.context "fix_info")] =
      w.impl_calls ++ [(w.state.current_iteration, pyCtxGet w.state.context "fix_info")]
    rw [hcur, hctx]
    rfl

theorem calls_fail_tail (cfg : LoopConfig) (e : IterEnv) (p : LoopPhase) (r : String)
    (w : World) : ∃ l, (StateManager.fail_phase
      (AgenticLoop.run_manager_on_iteration_stop cfg e p r w) p r).impl_calls =
      w.impl_calls ++ l :=
  (WEff.trans (weff_rmois cfg e p r w) (weff_fail_phase _ p r)).2.2

theorem calls_after_impl_tail (cfg : LoopConfig) (e : IterEnv) (r : SubagentResult)
    (w : World) : ∃ l, (AgenticLoop.run_iteration_after_impl cfg e r w).impl_calls =
      w.impl_calls ++ l :=
  (weff_run_iteration_after_impl cfg e r w).2.2

theorem run_iteration_calls (cfg : LoopConfig) (env : Nat → IterEnv) (w : World) :
    ∃ l, (AgenticLoop.run_iteration cfg env w).impl_calls =
      w.impl_calls ++ ((w.state.current_iteration + 1,
        pyCtxGet w.state.context "fix_info") :: l) := by
  have hne2 : (AgenticLoop.prepare_plan_progress (afterStart w)
      (env (afterStart w).state.current_iteration)).state.iterations ≠ [] := by
    rw [(prepare_plan_eff _ _).2.2.1]
    exact afterStart_ne w
  have hic := run_implementation_calls cfg (env (afterStart w).state.current_iteration)
    (AgenticLoop.prepare_plan_progress (afterStart w)
      (env (afterStart w).state.current_iteration)) hne2
  unfold AgenticLoop.run_iteration
  simp only []
  split
  · obtain ⟨l, hl⟩ := calls_fail_tail cfg (env (afterStart w).state.current_iteration)
      .implementation _ _
    refine ⟨l, ?_⟩
    rw [hl, hic, (prepare_plan_eff _ _).2.1, prepare_plan_fixinfo,
      (prepare_plan_eff _ _).2.2.2.2, List.append_assoc]
    rfl
  · obtain ⟨l, hl⟩ := calls_after_impl_tail cfg (env (afterStart w).state.current_iteration)
      _ _
    refine ⟨l, ?_⟩
    rw [hl, hic, (prepare_plan_eff _ _).2.1, prepare_plan_fixinfo,
      (prepare_plan_eff _ _).2.2.2.2, List.append_assoc]
    rfl

theorem runWhile_calls_prefix (cfg : LoopConfig) (env : Nat → IterEnv) :
    ∀ (fuel : Nat) (w : World), ∃ l,
      (AgenticLoop.runWhile cfg env fuel w).impl_calls = w.impl_calls ++ l := by
  intro fuel
  induction fuel with
  | zero => exact fun w => ⟨[], (List.append_nil _).symm⟩
  | succ n ih =>
      intro w
      unfold AgenticLoop.runWhile
      split
      · obtain ⟨l1, h1⟩ := run_iteration_calls cfg env w
        obtain ⟨l2, h2⟩ := ih (AgenticLoop.run_iteration cfg env w)
        exact ⟨_, by rw [h2, h1, List.append_assoc]⟩
      · exact ⟨[], (List.append_nil _).symm⟩

theorem runWhile_head_succ (cfg : LoopConfig) (env : Nat → IterEnv) (n : Nat) (w0 : World)
    (hcalls : w0.impl_calls = []) (hcur : w0.state.current_iteration = 0)
    (hctx : w0.state.context = [])
    (hsc : AgenticLoop.should_continue w0.state = true) :
    (AgenticLoop.runWhile cfg env (n + 1) w0).impl_calls.head? = some (1, CtxVal.vNone) := by
  unfold AgenticLoop.runWhile
  rw [if_pos hsc]
  obtain ⟨l1, h1⟩ := run_iteration_calls cfg env w0
  obtain ⟨l2, h2⟩ := runWhile_calls_prefix cfg env n (AgenticLoop.run_iteration cfg env w0)
  rw [h2, h1, hcalls, hcur, hctx]
  rfl

theorem run_calls_head (cfg : LoopConfig) (avail : List String) (env : Nat → IterEnv)
    (w : World) (hmax : 0 < cfg.max_iterations) :
    (AgenticLoop.run cfg avail env w).impl_calls.head? = some (1, CtxVal.vNone) := by
  unfold AgenticLoop.run
  simp only []
  cases hmx : cfg.max_iterations with
  | zero => omega
  | succ n =>
      refine runWhile_head_succ cfg env n _ ?_ ?_ ?_ ?_
      · rfl
      · rfl
      · rfl
      · unfold AgenticLoop.should_continue
        rw [if_neg (by intro hcon; rcases hcon with hx | hx | hx <;>
          exact LoopPhase.noConfusion hx)]
        rw [if_neg (by show ¬(n + 1 ≤ 0); omega)]

/-- Fixture: a persisted mid-run QA state carrying fix-info context. -/
def sC3 : ExecutionState :=
  { sInit with
    current_phase := .qa
    current_iteration := 1
    context := [("fix_info", CtxVal.vStr "add error handling")] }

/-- Fixture: a world whose persisted state holds fix-info context. -/
def wC3 : World :=
  { state := sInit
    persisted := some sC3
    impl_calls := []
    clock := 0 }

/-- C3 counterexample: resuming a non-terminal persisted state whose
context carries fix_info does not hand it to the first Implementation
invocation of the resumed run: the first recorded Implementation call
of the resumed run receives fix_info None, not the persisted value. -/
theorem C3_counterexample :
    sC3.current_phase = .qa ∧
    pyCtxGet sC3.context "fix_info" = CtxVal.vStr "add error handling" ∧
    (∃ w', AgenticLoop.resume wC3 [] envC6 = .ok w' ∧
      w'.impl_calls.head? = some (1, CtxVal.vNone) ∧
      w'.impl_calls.head? ≠ some (1, CtxVal.vStr "add error handling")) :=
  ⟨rfl, rfl, ⟨_, rfl, by decide, by decide⟩⟩

/-- C3 (corrected): resume of a non-terminal persisted state re-enters
the loop at Implementation of a fresh iteration, but the persisted
context map is discarded rather than carried forward: run deletes the
old state and creates a fresh one, so the first Implementation
invocation of the resumed run receives fix_info None whatever context
was persisted. -/
theorem C3_resume_discards_context (w : World) (avail : List String) (env : Nat → IterEnv)
    (st : ExecutionState) (hp : w.persisted = some st)
    (hphase : ¬(st.current_phase = .completed ∨ st.current_phase = .failed))
    (hmax : 0 < st.max_iterations) :
    ∃ w', AgenticLoop.resume w avail env = .ok w' ∧
      w'.impl_calls.head? = some (1, CtxVal.vNone) := by
  unfold AgenticLoop.resume
  simp only [hp]
  rw [if_neg hphase]
  refine ⟨_, rfl, ?_⟩
  exact run_calls_head _ avail env _ hmax

theorem C3_witness :
    wC3.persisted = some sC3 ∧
    ¬(sC3.current_phase = .completed ∨ sC3.current_phase = .failed) ∧
    0 < sC3.max_iterations ∧
    (∃ w', AgenticLoop.resume wC3 [] envC6 = .ok w' ∧
      w'.impl_calls.head? = some (1, CtxVal.vNone)) :=
  ⟨rfl, by decide, by decide,
   C3_resume_discards_context wC3 [] envC6 sC3 rfl (by decide) (by decide)⟩

theorem splitFirst_fenceClose_boundary (b1 rest : List Char)
    (h : ∀ c ∈ b1, c ≠ backtickChar) :
    splitFirst jsonFenceClose (b1 ++ (jsonFenceClose ++ rest)) = some (b1, rest) := by
  induction b1 with
  | nil => rfl
  | cons c cs ih =>
      have hc : c ≠ backtickChar := h c (by simp)
      have hcs : ∀ x ∈ cs, x ≠ backtickChar := fun x hx => h x (by simp [hx])
      have hns : startsWithPat jsonFenceClose (c :: (cs ++ (jsonFenceClose ++ rest))) =
          false := by
        show (('\n' == c) && startsWithPat [backtickChar, backtickChar, backtickChar]
          (cs ++ (jsonFenceClose ++ rest))) = false
        by_cases hcn : c = '\n'
        · subst hcn
          cases cs with
          | nil =>
              show (('\n' == '\n') && startsWithPat
                [backtickChar, backtickChar, backtickChar]
                ([] ++ (jsonFenceClose ++ rest))) = false
              rw [show ([] ++ (jsonFenceClose ++ rest) : List Char) =
                '\n' :: backtickChar :: backtickChar :: backtickChar :: rest from rfl]
              simp [startsWithPat, show (backtickChar == '\n') = false from by decide]
          | cons c2 cs2 =>
              have h2 : (backtickChar == c2) = false := by
                rw [beq_eq_false_iff_ne]
                exact fun he => hcs c2 (by simp) he.symm
              simp [startsWithPat, h2]
        · have h1 : (('\n' : Char) == c) = false := by
            rw [beq_eq_false_iff_ne]
            exact fun he => hcn he.symm
          simp [h1]
      show splitFirst jsonFenceClose (c :: (cs ++ (jsonFenceClose ++ rest))) =
        some (c :: cs, rest)
      unfold splitFirst
      rw [if_neg (by rw [hns]; exact Bool.false_ne_true)]
      rw [ih hcs]

theorem scanFenced_head (fuel : Nat) (hd : Char) (tl rest : List Char)
    (hhd : isPySpace hd = false)
    (hnb : ∀ c ∈ hd :: tl, c ≠ backtickChar) :
    scanFenced (fuel + 1)
      (jsonFenceOpen ++ '\n' :: ((hd :: tl) ++ (jsonFenceClose ++ rest))) =
      (hd :: tl) :: scanFenced fuel rest := by
  have ht1 : isPySpace '\n' = true := by decide
  conv_lhs => unfold scanFenced
  rw [if_pos (show startsWithPat jsonFenceOpen
    (jsonFenceOpen ++ '\n' :: ((hd :: tl) ++ (jsonFenceClose ++ rest))) = true from rfl)]
  simp only []
  rw [show (jsonFenceOpen ++ '\n' :: ((hd :: tl) ++ (jsonFenceClose ++ rest))).drop 7 =
    '\n' :: ((hd :: tl) ++ (jsonFenceClose ++ rest)) from rfl]
  rw [show ('\n' :: ((hd :: tl) ++ (jsonFenceClose ++ rest))).takeWhile isPySpace =
    ['\n'] from by
      rw [List.cons_append]
      simp [List.takeWhile_cons, ht1, hhd]]
  rw [show ('\n' :: ((hd :: tl) ++ (jsonFenceClose ++ rest))).dropWhile isPySpace =
    hd :: (tl ++ (jsonFenceClose ++ rest)) from by
      rw [List.cons_append]
      simp [List.dropWhile_cons, ht1, hhd]]
  rw [show lastNewlineSplit ['\n'] = some ([], []) from rfl]
  simp only []
  rw [List.nil_append, ← List.cons_append,
    splitFirst_fenceClose_boundary (hd :: tl) rest hnb]

theorem parse_json_from_markdown_first (hd : Char) (tl rest : List Char)
    (d1 : List (String × Json))
    (hhd : isPySpace hd = false)
    (hnb : ∀ c ∈ hd :: tl, c ≠ backtickChar)
    (hparse : json_loads_dict (pyStrip (String.mk (hd :: tl))) = some d1) :
    parse_json_from_markdown
      (String.mk (jsonFenceOpen ++ '\n' :: ((hd :: tl) ++ (jsonFenceClose ++ rest)))) =
      some d1 := by
  unfold parse_json_from_markdown
  rw [show (String.mk (jsonFenceOpen ++ '\n' ::
      ((hd :: tl) ++ (jsonFenceClose ++ rest)))).data =
    jsonFenceOpen ++ '\n' :: ((hd :: tl) ++ (jsonFenceClose ++ rest)) from rfl]
  rw [show (String.mk (jsonFenceOpen ++ '\n' ::
      ((hd :: tl) ++ (jsonFenceClose ++ rest)))).length =
    (jsonFenceOpen ++ '\n' :: ((hd :: tl) ++ (jsonFenceClose ++ rest))).length from rfl]
  rw [scanFenced_head _ hd tl rest hhd hnb]
  rw [List.map_cons]
  simp only [List.findSome?_cons]
  rw [hparse]

theorem mem_dropWhile_of_mem (p : Char → Bool) (l : List Char) (c : Char)
    (hc : p c = false) (hm : c ∈ l) : c ∈ l.dropWhile p := by
  induction l with
  | nil => cases hm
  | cons a t ih =>
      rw [List.dropWhile_cons]
      split
      · next hpa =>
          rcases List.mem_cons.mp hm with rfl | hmt
          · rw [hpa] at hc
            cases hc
          · exact ih hmt
      · exact hm

theorem mk_isEmpty_false (l : List Char) (h : l ≠ []) : (String.mk l).isEmpty = false := by
  cases hx : (String.mk l).isEmpty
  · rfl
  · exact absurd (congrArg String.data ((String.isEmpty_iff _).mp hx)) h

theorem pyStrip_isEmpty_false (l : List Char) (c : Char) (hc : isPySpace c = false)
    (hm : c ∈ l) : (pyStrip (String.mk l)).isEmpty = false := by
  have h1 := mem_dropWhile_of_mem isPySpace l c hc hm
  have h2 := mem_dropWhile_of_mem isPySpace (l.dropWhile isPySpace).reverse c hc
    (List.mem_reverse.mpr h1)
  have h4 : c ∈ ((l.dropWhile isPySpace).reverse.dropWhile isPySpace).reverse :=
    List.mem_reverse.mpr h2
  rw [show pyStrip (String.mk l) =
    String.mk (((l.dropWhile isPySpace).reverse.dropWhile isPySpace).reverse) from rfl]
  exact mk_isEmpty_false _ (List.ne_nil_of_mem h4)

/-- C1 (corrected): for a text opening with a fenced JSON block whose
backtick-free body parses as a non-empty JSON dict, try_parse_json
returns the parse of that FIRST block, whatever follows — in
particular later fenced JSON blocks are ignored, so with blocks 1 then
2 the normalizer returns block 1, not the last block. -/
theorem C1_first_fenced_json_block_wins (hd : Char) (tl rest : List Char)
    (d1 : List (String × Json))
    (hhd : isPySpace hd = false)
    (hnb : ∀ c ∈ hd :: tl, c ≠ backtickChar)
    (hparse : json_loads_dict (pyStrip (String.mk (hd :: tl))) = some d1)
    (hd1 : d1 ≠ []) :
    try_parse_json
      (String.mk (jsonFenceOpen ++ '\n' :: ((hd :: tl) ++ (jsonFenceClose ++ rest)))) =
      some d1 := by
  have hie : (String.mk (jsonFenceOpen ++ '\n' ::
      ((hd :: tl) ++ (jsonFenceClose ++ rest)))).isEmpty = false :=
    mk_isEmpty_false _ (by simp [jsonFenceOpen])
  have hse : (pyStrip (String.mk (jsonFenceOpen ++ '\n' ::
      ((hd :: tl) ++ (jsonFenceClose ++ rest))))).isEmpty = false :=
    pyStrip_isEmpty_false _ backtickChar (by decide) (by simp [jsonFenceOpen])
  have hde : d1.isEmpty = false := by
    cases d1 with
    | nil => exact absurd rfl hd1
    | cons a t => rfl
  unfold try_parse_json
  rw [if_neg (fun h => by rw [hie, hse] at h; exact Bool.noConfusion h)]
  simp only []
  rw [parse_json_from_markdown_first hd tl rest d1 hhd hnb hparse]
  simp only []
  rw [hde]
  rfl

/-- Fixture: the characters of the first JSON block of the spec's
two-block example. -/
def b1C1 : List Char := [lbraceChar, quoteChar, 'a', quoteChar, ':', '1', rbraceChar]

/-- Fixture: the characters of the second JSON block of the spec's
two-block example. -/
def b2C1 : List Char := [lbraceChar, quoteChar, 'a', quoteChar, ':', '2', rbraceChar]

/-- Fixture: the text following the first fenced block: a blank line
and the second fenced JSON block. -/
def restC1 : List Char := '\n' :: '\n' :: (jsonFenceOpen ++ '\n' :: (b2C1 ++ jsonFenceClose))

/-- Fixture: the spec's two-block example text. -/
def inputC1 : String :=
  String.mk (jsonFenceOpen ++ '\n' :: (b1C1 ++ (jsonFenceClose ++ restC1)))

/-- C1 counterexample: on the spec's own two-block example the
normalizer returns the parse of the first fenced block, not the
last. -/
theorem C1_counterexample :
    try_parse_json inputC1 = some [("a", Json.jNum 1)] ∧
    try_parse_json inputC1 ≠ some [("a", Json.jNum 2)] := by
  constructor
  · rfl
  · intro h
    rw [show try_parse_json inputC1 = some [("a", Json.jNum 1)] from rfl] at h
    injection h with h1
    injection h1 with h2 h3
    injection h2 with h4 h5
    injection h5 with h6
    exact absurd h6 (by decide)

theorem C1_witness :
    isPySpace lbraceChar = false ∧
    (∀ c ∈ lbraceChar :: [quoteChar, 'a', quoteChar, ':', '1', rbraceChar],
      c ≠ backtickChar) ∧
    json_loads_dict (pyStrip (String.mk (lbraceChar ::
      [quoteChar, 'a', quoteChar, ':', '1', rbraceChar]))) = some [("a", Json.jNum 1)] ∧
    ([("a", Json.jNum 1)] : List (String × Json)) ≠ [] ∧
    try_parse_json (String.mk (jsonFenceOpen ++ '\n' ::
      ((lbraceChar :: [quoteChar, 'a', quoteChar, ':', '1', rbraceChar]) ++
        (jsonFenceClose ++ restC1)))) = some [("a", Json.jNum 1)] :=
  ⟨by decide, by decide, rfl, by simp,
   C1_first_fenced_json_block_wins lbraceChar
     [quoteChar, 'a', quoteChar, ':', '1', rbraceChar] restC1 [("a", Json.jNum 1)]
     (by decide) (by decide) rfl (by simp)⟩
